import Mathlib

/-!
# Slot machine: geometry helpers, reel engine and the four-state game loop

A shallow embedding of `source/game.cpp`, `source/StateMachine.hpp`,
`source/StateMachine.cpp` and the frame loop of `source/main.cpp`.

Conventions of the embedding
* C++ `int` is `Int`.  Signed overflow and division by zero are undefined in C++,
  so there is no wrapping behaviour to model; the definitions agree with the
  program wherever the program is defined.  `%` on `int` truncates towards zero
  and is `Int.tmod`.
* C++ `float` values (`SDL_FRect`, `SDL_FColor`, `Drum::velocity`, pointer
  coordinates) are rationals.  The reel tick `drum.scrollingOffset +
  drum.velocity` is computed as the program computes it: the `int` is converted
  to binary32, the sum is rounded to binary32 (round to nearest, ties to even),
  and the conversion `float -> int` done when the sum is passed for an `int`
  parameter is truncation towards zero.  Values beyond the largest finite
  binary32 number are not modelled; converting them to `int` is undefined in
  C++.  In `collision` the coordinates are compared as exact numbers.
* `std::chrono` time points and durations are rational numbers of seconds (a
  tick count times the clock period), so comparing durations is exact, as it is
  in `std::chrono`.
* Handles of the platform layer (window, renderer, font, label textures) carry
  no information the game logic reads and are left out; of the reel texture only
  the width and height are kept.  Drawing has no effect on the modelled state.
* A `BaseGameState*` that points at one of the four members of `StateMachine`
  is a value of `BaseGameStatePtr`; a virtual call through such a pointer is a
  function that updates the corresponding member.
* What the platform returns is an input: the events and clock readings of a
  frame (`FrameInput`) and the outcomes of the start-up calls (`Platform`).
-/

namespace Octavian

/-! ## game.hpp / game.cpp -/

/-- Rectangle with `float` coordinates. -/
structure SDL_FRect where
  x : ℚ := 0
  y : ℚ := 0
  w : ℚ := 0
  h : ℚ := 0
  deriving DecidableEq

/-- Colour with `float` channels. -/
structure SDL_FColor where
  r : ℚ := 0
  g : ℚ := 0
  b : ℚ := 0
  a : ℚ := 0
  deriving DecidableEq

/-- The two fields of a texture that the game reads. -/
structure SDL_Texture where
  w : Int := 0
  h : Int := 0
  deriving DecidableEq

namespace BaseColorPallete
def black : SDL_FColor := ⟨0, 0, 0, 1⟩
def grey : SDL_FColor := ⟨1/2, 1/2, 1/2, 1⟩
def white : SDL_FColor := ⟨1, 1, 1, 1⟩
def red : SDL_FColor := ⟨1, 0, 0, 1⟩
def green : SDL_FColor := ⟨0, 1, 0, 1⟩
def blue : SDL_FColor := ⟨0, 0, 1, 1⟩
end BaseColorPallete

namespace GameColorPallete
def background : SDL_FColor := BaseColorPallete.white
def busyButton : SDL_FColor := BaseColorPallete.grey
def startButton : SDL_FColor := BaseColorPallete.green
def stopButton : SDL_FColor := BaseColorPallete.red
def rewardDisplay : SDL_FColor := BaseColorPallete.blue
end GameColorPallete

/-- One reel: `struct Drum`. -/
structure Drum where
  layout : SDL_FRect := {}
  scrollingOffset : Int := 0
  velocity : ℚ := 0
  deriving DecidableEq

/-- A clickable button: `struct Button` without its label texture. -/
structure Button where
  layout : SDL_FRect := {}
  color : SDL_FColor := {}
  deriving DecidableEq

/-- The shared world: `struct GameContext`.  `drums` lists the elements of the
`std::array<Drum, 4>` in index order. -/
structure GameContext where
  drumTexture : SDL_Texture := {}
  startButton : Button := {}
  stopButton : Button := {}
  drums : List Drum := []
  deriving DecidableEq

/-- Conversion of a `float` argument to an `int` parameter: truncation towards zero. -/
def floatToInt (q : ℚ) : Int :=
  if 0 ≤ q then ⌊q⌋ else ⌈q⌉

/-- The integer nearest to `q`; a value half-way between two integers goes to the even one. -/
def roundHalfEven (q : ℚ) : Int :=
  if q - ⌊q⌋ < 1 / 2 then ⌊q⌋
  else if 1 / 2 < q - ⌊q⌋ then ⌊q⌋ + 1
  else if ⌊q⌋ % 2 = 0 then ⌊q⌋
  else ⌊q⌋ + 1

/-- Distance between neighbouring binary32 values at the magnitude of `q`:
`2 ^ (e - 23)` with `e` the binary exponent of `q`, not below the least normal
exponent `-126` (24-bit significand). -/
def binary32Ulp (q : ℚ) : ℚ :=
  (2 : ℚ) ^ (max (Int.log 2 |q|) (-126) - 23)

/-- Rounding of an exact value to binary32: round to nearest, ties to even. -/
def roundBinary32 (q : ℚ) : ℚ :=
  (roundHalfEven (q / binary32Ulp q) : ℚ) * binary32Ulp q

/-- Conversion `int -> float`. -/
def intToFloat (n : Int) : ℚ :=
  roundBinary32 (n : ℚ)

/-- Addition of two `float` values. -/
def floatAdd (a b : ℚ) : ℚ :=
  roundBinary32 (a + b)

/-- `wraparound(int p, int min, int max)` of game.cpp. -/
def wraparound (p min max : Int) : Int :=
  let p := if p ≥ max then min + Int.tmod p (max - min) else p
  let p := if p < min then max + Int.tmod p (max - min) else p
  p

/-- `collision(float x, float y, SDL_FRect rect)` of game.cpp. -/
def collision (x y : ℚ) (rect : SDL_FRect) : Bool :=
  decide (rect.x ≤ x) && decide (x ≤ rect.x + rect.w) &&
    decide (rect.y ≤ y) && decide (y ≤ rect.y + rect.h)

/-! ## Input events -/

/-- The event kinds the program tells apart. -/
inductive SDL_EventType where
  | SDL_EVENT_QUIT
  | SDL_EVENT_MOUSE_BUTTON_DOWN
  | other
  deriving DecidableEq, Repr

/-- Member `button` of the event union: the pointer position. -/
structure SDL_MouseButtonEvent where
  x : ℚ := 0
  y : ℚ := 0
  deriving DecidableEq

/-- An input event: its kind and its `button` member. -/
structure SDL_Event where
  type : SDL_EventType
  button : SDL_MouseButtonEvent := {}
  deriving DecidableEq

/-! ## StateMachine.hpp / StateMachine.cpp -/

/-- State identifiers: `enum class States`. -/
inductive States where
  | Idle
  | Rolling
  | EndRolling
  | RewardPresentation
  deriving DecidableEq, Repr

/-- Data members of `struct Idle`. -/
structure Idle where
  isStartButtonPushed : Bool := false
  deriving DecidableEq

/-- Data members of `struct Rolling`; times are in seconds. -/
structure Rolling where
  isStopButtonPushed : Bool := false
  isTimerUp : Bool := false
  startTime : ℚ := 0
  timerDuration : ℚ := 3
  deriving DecidableEq

/-- Data members of `struct EndRolling`. -/
structure EndRolling where
  isDrumsStoped : Bool := false
  deriving DecidableEq

/-- Data members of `struct RewardPresentation`. -/
structure RewardPresentation where
  reward : Int := 0
  shouldBeginNextCycle : Bool := false
  deriving DecidableEq

namespace Idle

def enter (self : Idle) (context : GameContext) : Idle × GameContext :=
  (self,
   { context with
     startButton := { context.startButton with color := GameColorPallete.startButton }
     stopButton := { context.stopButton with color := GameColorPallete.stopButton } })

def exit (self : Idle) (context : GameContext) : Idle × GameContext :=
  ({ self with isStartButtonPushed := false }, context)

def handleEvent (self : Idle) (context : GameContext) (event : SDL_Event) :
    Idle × GameContext :=
  if event.type = SDL_EventType.SDL_EVENT_MOUSE_BUTTON_DOWN then
    ({ self with
       isStartButtonPushed :=
         collision event.button.x event.button.y context.startButton.layout },
     context)
  else
    (self, context)

def update (self : Idle) (context : GameContext) : Idle × GameContext :=
  (self, context)

def transition (self : Idle) (_context : GameContext) : States :=
  if self.isStartButtonPushed then States.Rolling else States.Idle

end Idle

namespace Rolling

/-- `now` is the value `std::chrono::system_clock::now()` returns in this call. -/
def enter (now : ℚ) (self : Rolling) (context : GameContext) : Rolling × GameContext :=
  ({ self with startTime := now },
   { context with
     startButton := { context.startButton with color := GameColorPallete.busyButton } })

def exit (self : Rolling) (context : GameContext) : Rolling × GameContext :=
  ({ self with isStopButtonPushed := false },
   { context with
     stopButton := { context.stopButton with color := GameColorPallete.busyButton } })

def handleEvent (self : Rolling) (context : GameContext) (event : SDL_Event) :
    Rolling × GameContext :=
  if event.type = SDL_EventType.SDL_EVENT_MOUSE_BUTTON_DOWN then
    ({ self with
       isStopButtonPushed :=
         collision event.button.x event.button.y context.stopButton.layout },
     context)
  else
    (self, context)

/-- `now` is the value `std::chrono::system_clock::now()` returns in this call. -/
def update (now : ℚ) (self : Rolling) (context : GameContext) : Rolling × GameContext :=
  ({ self with isTimerUp := decide (now - self.startTime ≥ self.timerDuration) },
   { context with
     drums := context.drums.map fun drum =>
       { drum with
         scrollingOffset :=
           wraparound (floatToInt (floatAdd (intToFloat drum.scrollingOffset) drum.velocity)) 0
             context.drumTexture.h } })

def transition (self : Rolling) (_context : GameContext) : States :=
  if self.isStopButtonPushed || self.isTimerUp then States.EndRolling else States.Rolling

end Rolling

namespace EndRolling

def enter (self : EndRolling) (context : GameContext) : EndRolling × GameContext :=
  (self, context)

def exit (self : EndRolling) (context : GameContext) : EndRolling × GameContext :=
  ({ self with isDrumsStoped := false }, context)

def handleEvent (self : EndRolling) (context : GameContext) (_event : SDL_Event) :
    EndRolling × GameContext :=
  (self, context)

/-- Body of the loop of `EndRolling::update` for one reel: the reel after the
iteration and the value of `isDrumsStoped` after it. -/
def updateDrum (texture : SDL_Texture) (drum : Drum) (isDrumsStoped : Bool) : Drum × Bool :=
  let drum :=
    if Int.tmod drum.scrollingOffset texture.w ≠ 0 then
      { drum with
        scrollingOffset :=
          wraparound (floatToInt (floatAdd (intToFloat drum.scrollingOffset) drum.velocity)) 0 texture.h }
    else drum
  (drum, isDrumsStoped && decide (Int.tmod drum.scrollingOffset texture.w = 0))

/-- The loop of `EndRolling::update` over the reels, in index order. -/
def updateDrums (texture : SDL_Texture) : List Drum → Bool → List Drum × Bool
  | [], isDrumsStoped => ([], isDrumsStoped)
  | drum :: rest, isDrumsStoped =>
    let step := updateDrum texture drum isDrumsStoped
    let tail := updateDrums texture rest step.2
    (step.1 :: tail.1, tail.2)

def update (self : EndRolling) (context : GameContext) : EndRolling × GameContext :=
  let result := updateDrums context.drumTexture context.drums true
  ({ self with isDrumsStoped := result.2 }, { context with drums := result.1 })

def transition (self : EndRolling) (_context : GameContext) : States :=
  if self.isDrumsStoped then States.RewardPresentation else States.EndRolling

end EndRolling

namespace RewardPresentation

def enter (self : RewardPresentation) (context : GameContext) :
    RewardPresentation × GameContext :=
  (self,
   { context with
     stopButton := { context.stopButton with color := GameColorPallete.busyButton } })

def exit (self : RewardPresentation) (context : GameContext) :
    RewardPresentation × GameContext :=
  ({ self with shouldBeginNextCycle := false }, context)

def handleEvent (self : RewardPresentation) (context : GameContext) (event : SDL_Event) :
    RewardPresentation × GameContext :=
  ({ self with
     shouldBeginNextCycle :=
       decide (event.type = SDL_EventType.SDL_EVENT_MOUSE_BUTTON_DOWN) },
   context)

def update (self : RewardPresentation) (context : GameContext) :
    RewardPresentation × GameContext :=
  (self, context)

def transition (self : RewardPresentation) (_context : GameContext) : States :=
  if self.shouldBeginNextCycle then States.Idle else States.RewardPresentation

end RewardPresentation

/-- The four state objects owned by `struct StateMachine`. -/
structure StateMachine where
  idleState : Idle := {}
  rollingState : Rolling := {}
  endRollingState : EndRolling := {}
  rewardPresentationState : RewardPresentation := {}
  deriving DecidableEq

/-- A `BaseGameState*` pointing at one of the members of the `StateMachine`. -/
inductive BaseGameStatePtr where
  | idleState
  | rollingState
  | endRollingState
  | rewardPresentationState
  deriving DecidableEq, Repr

/-- `StateMachine::transition`: the address of the member for an identifier. -/
def StateMachine.transition (_self : StateMachine) (nextState : States) : BaseGameStatePtr :=
  match nextState with
  | States.Idle => BaseGameStatePtr.idleState
  | States.Rolling => BaseGameStatePtr.rollingState
  | States.EndRolling => BaseGameStatePtr.endRollingState
  | States.RewardPresentation => BaseGameStatePtr.rewardPresentationState

/-! ### Virtual calls through a `BaseGameState*` -/

namespace BaseGameState

def enter (p : BaseGameStatePtr) (now : ℚ) (sm : StateMachine) (context : GameContext) :
    StateMachine × GameContext :=
  match p with
  | BaseGameStatePtr.idleState =>
    let r := sm.idleState.enter context
    ({ sm with idleState := r.1 }, r.2)
  | BaseGameStatePtr.rollingState =>
    let r := sm.rollingState.enter now context
    ({ sm with rollingState := r.1 }, r.2)
  | BaseGameStatePtr.endRollingState =>
    let r := sm.endRollingState.enter context
    ({ sm with endRollingState := r.1 }, r.2)
  | BaseGameStatePtr.rewardPresentationState =>
    let r := sm.rewardPresentationState.enter context
    ({ sm with rewardPresentationState := r.1 }, r.2)

def exit (p : BaseGameStatePtr) (sm : StateMachine) (context : GameContext) :
    StateMachine × GameContext :=
  match p with
  | BaseGameStatePtr.idleState =>
    let r := sm.idleState.exit context
    ({ sm with idleState := r.1 }, r.2)
  | BaseGameStatePtr.rollingState =>
    let r := sm.rollingState.exit context
    ({ sm with rollingState := r.1 }, r.2)
  | BaseGameStatePtr.endRollingState =>
    let r := sm.endRollingState.exit context
    ({ sm with endRollingState := r.1 }, r.2)
  | BaseGameStatePtr.rewardPresentationState =>
    let r := sm.rewardPresentationState.exit context
    ({ sm with rewardPresentationState := r.1 }, r.2)

def handleEvent (p : BaseGameStatePtr) (sm : StateMachine) (context : GameContext)
    (event : SDL_Event) : StateMachine × GameContext :=
  match p with
  | BaseGameStatePtr.idleState =>
    let r := sm.idleState.handleEvent context event
    ({ sm with idleState := r.1 }, r.2)
  | BaseGameStatePtr.rollingState =>
    let r := sm.rollingState.handleEvent context event
    ({ sm with rollingState := r.1 }, r.2)
  | BaseGameStatePtr.endRollingState =>
    let r := sm.endRollingState.handleEvent context event
    ({ sm with endRollingState := r.1 }, r.2)
  | BaseGameStatePtr.rewardPresentationState =>
    let r := sm.rewardPresentationState.handleEvent context event
    ({ sm with rewardPresentationState := r.1 }, r.2)

def update (p : BaseGameStatePtr) (now : ℚ) (sm : StateMachine) (context : GameContext) :
    StateMachine × GameContext :=
  match p with
  | BaseGameStatePtr.idleState =>
    let r := sm.idleState.update context
    ({ sm with idleState := r.1 }, r.2)
  | BaseGameStatePtr.rollingState =>
    let r := sm.rollingState.update now context
    ({ sm with rollingState := r.1 }, r.2)
  | BaseGameStatePtr.endRollingState =>
    let r := sm.endRollingState.update context
    ({ sm with endRollingState := r.1 }, r.2)
  | BaseGameStatePtr.rewardPresentationState =>
    let r := sm.rewardPresentationState.update context
    ({ sm with rewardPresentationState := r.1 }, r.2)

/-- Drawing changes neither the state objects nor the modelled part of the context. -/
def render (_p : BaseGameStatePtr) (sm : StateMachine) (context : GameContext) :
    StateMachine × GameContext :=
  (sm, context)

def transition (p : BaseGameStatePtr) (sm : StateMachine) (context : GameContext) : States :=
  match p with
  | BaseGameStatePtr.idleState => sm.idleState.transition context
  | BaseGameStatePtr.rollingState => sm.rollingState.transition context
  | BaseGameStatePtr.endRollingState => sm.endRollingState.transition context
  | BaseGameStatePtr.rewardPresentationState => sm.rewardPresentationState.transition context

end BaseGameState

/-! ## main.cpp: the frame loop -/

/-- A virtual call made by `main`, recorded for reasoning about call order;
`transition` is recorded with the identifier it returned. -/
inductive Call where
  | enter (p : BaseGameStatePtr)
  | exit (p : BaseGameStatePtr)
  | handleEvent (p : BaseGameStatePtr)
  | update (p : BaseGameStatePtr)
  | render (p : BaseGameStatePtr)
  | transition (p : BaseGameStatePtr) (result : States)
  deriving DecidableEq, Repr

/-- Local variables of `main` while the loop runs, with the record of the virtual
calls made so far (`calls`, oldest first; not a variable of the program). -/
structure MainLoop where
  context : GameContext
  stateMachine : StateMachine := {}
  currentState : BaseGameStatePtr
  isRunning : Bool := true
  calls : List Call := []
  deriving DecidableEq

/-- What the environment supplies during one frame: the events `SDL_PollEvent`
hands out before it reports an empty queue, and the clock readings seen by a
call of `update` and by a call of `enter`. -/
structure FrameInput where
  events : List SDL_Event := []
  updateClock : ℚ := 0
  enterClock : ℚ := 0

/-- main.cpp lines 34-37: create the machine and enter `Idle`. -/
def mainInit (enterClock : ℚ) (context : GameContext) : MainLoop :=
  let stateMachine : StateMachine := {}
  let currentState := stateMachine.transition States.Idle
  let r := BaseGameState.enter currentState enterClock stateMachine context
  { context := r.2, stateMachine := r.1, currentState := currentState,
    isRunning := true, calls := [Call.enter currentState] }

/-- Body of the inner loop `while (SDL_PollEvent(&event))` for one event. -/
def pollEvent (m : MainLoop) (event : SDL_Event) : MainLoop :=
  let isRunning :=
    if event.type = SDL_EventType.SDL_EVENT_QUIT then false else m.isRunning
  let r := BaseGameState.handleEvent m.currentState m.stateMachine m.context event
  { m with
    isRunning := isRunning, stateMachine := r.1, context := r.2,
    calls := m.calls ++ [Call.handleEvent m.currentState] }

/-- The inner loop `while (SDL_PollEvent(&event))`: events in arrival order. -/
def pollEvents (events : List SDL_Event) (m : MainLoop) : MainLoop :=
  events.foldl pollEvent m

/-- main.cpp lines 48-50: `update`, then `render`. -/
def updateAndRender (updateClock : ℚ) (m : MainLoop) : MainLoop :=
  let u := BaseGameState.update m.currentState updateClock m.stateMachine m.context
  let r := BaseGameState.render m.currentState u.1 u.2
  { m with
    stateMachine := r.1, context := r.2,
    calls := m.calls ++ [Call.update m.currentState, Call.render m.currentState] }

/-- main.cpp lines 52-57: decide the next state and switch to it when the
pointer differs from `currentState`. -/
def switchState (enterClock : ℚ) (m : MainLoop) : MainLoop :=
  let decided := BaseGameState.transition m.currentState m.stateMachine m.context
  let nextState := m.stateMachine.transition decided
  let calls := m.calls ++ [Call.transition m.currentState decided]
  if nextState ≠ m.currentState then
    let x := BaseGameState.exit m.currentState m.stateMachine m.context
    let e := BaseGameState.enter nextState enterClock x.1 x.2
    { m with
      stateMachine := e.1, context := e.2, currentState := nextState,
      calls := calls ++ [Call.exit m.currentState, Call.enter nextState] }
  else
    { m with calls := calls }

/-- One iteration of `while (isRunning)`. -/
def frame (input : FrameInput) (m : MainLoop) : MainLoop :=
  switchState input.enterClock (updateAndRender input.updateClock (pollEvents input.events m))

/-- The loop `while (isRunning)` over the frames the environment supplies. -/
def mainLoop : List FrameInput → MainLoop → MainLoop
  | [], m => m
  | input :: rest, m => if m.isRunning then mainLoop rest (frame input m) else m

/-- Identifier of the state a pointer refers to. -/
def BaseGameStatePtr.id : BaseGameStatePtr → States
  | BaseGameStatePtr.idleState => States.Idle
  | BaseGameStatePtr.rollingState => States.Rolling
  | BaseGameStatePtr.endRollingState => States.EndRolling
  | BaseGameStatePtr.rewardPresentationState => States.RewardPresentation

/-! ## Loop bodies and labels -/

/-- Body of the loop of `Rolling::update` for one reel. -/
def Rolling.updateDrum (texture : SDL_Texture) (drum : Drum) : Drum :=
  { drum with
    scrollingOffset :=
      wraparound (floatToInt (floatAdd (intToFloat drum.scrollingOffset) drum.velocity)) 0 texture.h }

/-- The reel after one iteration of the loop of `EndRolling::update`. -/
def EndRolling.updateReel (texture : SDL_Texture) (drum : Drum) : Drum :=
  (EndRolling.updateDrum texture drum true).1

/-- `EndRolling::update` called `n` times in a row. -/
def EndRolling.updates (n : ℕ) (self : EndRolling) (context : GameContext) :
    EndRolling × GameContext :=
  (fun state : EndRolling × GameContext => EndRolling.update state.1 state.2)^[n] (self, context)

/-- `std::to_string(int)`: decimal digits, with a leading minus sign for a negative value. -/
def std_to_string (value : Int) : String :=
  toString value

/-- The string `result` that the loop of `RewardPresentation::render` builds for one reel. -/
def RewardPresentation.label (texture : SDL_Texture) (drum : Drum) : String :=
  std_to_string (Int.tdiv drum.scrollingOffset texture.w + 1)

/-- The strings `RewardPresentation::render` passes to
`loadTextureFromRenderedText`, one for each reel in index order. -/
def RewardPresentation.renderLabels (context : GameContext) : List String :=
  context.drums.map (RewardPresentation.label context.drumTexture)

/-! ## Start-up: `initGameContext` and `main` -/

/-- What the platform calls made during start-up return: whether `SDL_Init`,
`TTF_Init`, `SDL_CreateWindow`, `SDL_CreateRenderer` and `TTF_OpenFont` succeed,
and the texture `loadTexture` returns for the reel bitmap (`none` for `nullptr`). -/
structure Platform where
  sdlInit : Bool := true
  ttfInit : Bool := true
  window : Bool := true
  renderer : Bool := true
  drumTexture : Option SDL_Texture := none
  font : Bool := true

/-- `initGameContext()` of game.cpp.  The branch `if (!result.font)` reports the
error and releases the renderer and the window but does not return, so the
function goes on to build the buttons and the reels whether or not the font was
opened; the outcome `platform.font` therefore does not occur in the result. -/
def initGameContext (platform : Platform) : Option GameContext :=
  if platform.window = false then none
  else if platform.renderer = false then none
  else
    match platform.drumTexture with
    | none => none
    | some drumTexture =>
      let drumScrollingOffset : Int := 0
      let drumVelocity : Int := 2
      some
        { drumTexture := drumTexture
          startButton :=
            { layout := { x := 650, y := 10, w := 150, h := 60 },
              color := GameColorPallete.startButton }
          stopButton :=
            { layout := { x := 650, y := 80, w := 150, h := 60 },
              color := GameColorPallete.stopButton }
          drums :=
            [{ layout := { x := 0, y := 0, w := 64, h := 64 },
               scrollingOffset := drumScrollingOffset,
               velocity := (drumVelocity : ℚ) },
             { layout := { x := 64, y := 0, w := 64, h := 64 },
               scrollingOffset := drumScrollingOffset,
               velocity := ((drumVelocity + 2 : Int) : ℚ) },
             { layout := { x := 64 * 2, y := 0, w := 64, h := 64 },
               scrollingOffset := drumScrollingOffset,
               velocity := ((drumVelocity + 5 : Int) : ℚ) },
             { layout := { x := 64 * 3, y := 0, w := 64, h := 64 },
               scrollingOffset := drumScrollingOffset,
               velocity := ((drumVelocity + 7 : Int) : ℚ) }] }

/-- Outcome of a run of `main`: the exit code, `none` while the loop is still
running after the frames supplied, and the virtual calls made. -/
structure MainResult where
  exitCode : Option Int
  calls : List Call
  deriving DecidableEq

/-- `main` of main.cpp, run on the frames the environment supplies. -/
def main (platform : Platform) (enterClock : ℚ) (frames : List FrameInput) : MainResult :=
  if platform.sdlInit = false then { exitCode := some 1, calls := [] }
  else if platform.ttfInit = false then { exitCode := some 1, calls := [] }
  else
    match initGameContext platform with
    | none => { exitCode := some 1, calls := [] }
    | some context =>
      let m := mainLoop frames (mainInit enterClock context)
      { exitCode := if m.isRunning then none else some 0, calls := m.calls }

/-! ## Predicates used in the invariants -/

/-- The reels of a context are in range for texture height `H`: the texture has
height `H`, every offset lies in `[0, H)`, and no velocity is negative. -/
def ReelsInRange (H : Int) (context : GameContext) : Prop :=
  context.drumTexture.h = H ∧
    ∀ drum ∈ context.drums,
      0 ≤ drum.scrollingOffset ∧ drum.scrollingOffset < H ∧ 0 ≤ drum.velocity

/-! ## Facts about `wraparound` and `floatToInt` -/

theorem wraparound_of_mem (v lo hi : Int) (hlo : lo ≤ v) (hhi : v < hi) :
    wraparound v lo hi = v := by
  unfold wraparound
  dsimp only
  split_ifs <;> omega

theorem wraparound_of_ge (v lo hi : Int) (hv : 0 ≤ v) (hge : hi ≤ v) :
    wraparound v lo hi = lo + Int.tmod v (hi - lo) := by
  have h0 : 0 ≤ Int.tmod v (hi - lo) := Int.tmod_nonneg _ hv
  unfold wraparound
  dsimp only
  split_ifs <;> omega

theorem wraparound_zero_of_nonneg (v hi : Int) (hv : 0 ≤ v) (hhi : 0 < hi) :
    wraparound v 0 hi = v % hi := by
  by_cases h : v < hi
  · rw [wraparound_of_mem v 0 hi hv h, Int.emod_eq_of_lt hv h]
  · rw [wraparound_of_ge v 0 hi hv (by omega), Int.tmod_eq_emod hv (by omega)]
    simp

theorem wraparound_mem_of_nonneg (v lo hi : Int) (hv : 0 ≤ v) (hlo : lo ≤ v) (hlt : lo < hi) :
    lo ≤ wraparound v lo hi ∧ wraparound v lo hi < hi := by
  by_cases h : v < hi
  · rw [wraparound_of_mem v lo hi hlo h]; omega
  · rw [wraparound_of_ge v lo hi hv (by omega)]
    have h0 : 0 ≤ Int.tmod v (hi - lo) := Int.tmod_nonneg _ hv
    have h1 : Int.tmod v (hi - lo) < hi - lo := Int.tmod_lt_of_pos _ (by omega)
    omega

theorem floatToInt_intCast (n : Int) : floatToInt (n : ℚ) = n := by
  unfold floatToInt
  split_ifs <;> simp

theorem floatToInt_add_intCast (a b : Int) : floatToInt ((a : ℚ) + (b : ℚ)) = a + b := by
  rw [← Int.cast_add, floatToInt_intCast]

theorem floatToInt_nonneg (q : ℚ) (h : 0 ≤ q) : 0 ≤ floatToInt q := by
  unfold floatToInt
  rw [if_pos h]
  exact Int.floor_nonneg.mpr h

/-! ## Facts about binary32 rounding -/

theorem roundHalfEven_intCast (m : Int) : roundHalfEven (m : ℚ) = m := by
  simp [roundHalfEven]

theorem roundHalfEven_nonneg (q : ℚ) (h : 0 ≤ q) : 0 ≤ roundHalfEven q := by
  have hf : 0 ≤ ⌊q⌋ := Int.floor_nonneg.mpr h
  unfold roundHalfEven
  split_ifs <;> omega

theorem binary32Ulp_pos (q : ℚ) : 0 < binary32Ulp q := by
  unfold binary32Ulp
  positivity

theorem roundBinary32_nonneg (q : ℚ) (h : 0 ≤ q) : 0 ≤ roundBinary32 q := by
  unfold roundBinary32
  have h1 : 0 ≤ q / binary32Ulp q := div_nonneg h (le_of_lt (binary32Ulp_pos q))
  have h2 : (0 : ℚ) ≤ (roundHalfEven (q / binary32Ulp q) : ℚ) := by
    exact_mod_cast roundHalfEven_nonneg _ h1
  exact mul_nonneg h2 (le_of_lt (binary32Ulp_pos q))

theorem roundBinary32_of_div_intCast (q : ℚ) (m : Int) (h : q / binary32Ulp q = (m : ℚ)) :
    roundBinary32 q = q := by
  unfold roundBinary32
  rw [h, roundHalfEven_intCast, ← h]
  exact div_mul_cancel₀ q (ne_of_gt (binary32Ulp_pos q))

theorem binary32Ulp_of_binade (q : ℚ) (e : Int) (hlo : (2 : ℚ) ^ e ≤ |q|)
    (hhi : |q| < (2 : ℚ) ^ (e + 1)) (he : -126 ≤ e) :
    binary32Ulp q = (2 : ℚ) ^ (e - 23) := by
  have hpos : 0 < |q| := lt_of_lt_of_le (by positivity) hlo
  have h1 : e ≤ Int.log 2 |q| :=
    (Int.zpow_le_iff_le_log (by norm_num) hpos).mp (by exact_mod_cast hlo)
  have h2 : Int.log 2 |q| < e + 1 :=
    (Int.lt_zpow_iff_log_lt (by norm_num) hpos).mp (by exact_mod_cast hhi)
  have h3 : Int.log 2 |q| = e := by omega
  unfold binary32Ulp
  rw [h3, max_eq_left he]

/-- An integer of magnitude at most `2 ^ 24` is a binary32 value. -/
theorem roundBinary32_intCast (n : Int) (h : |n| ≤ 16777216) :
    roundBinary32 (n : ℚ) = (n : ℚ) := by
  by_cases hn : n = 0
  · subst hn
    apply roundBinary32_of_div_intCast _ 0
    simp
  · have habs : (1 : ℚ) ≤ |(n : ℚ)| := by
      have : (1 : Int) ≤ |n| := Int.one_le_abs hn
      exact_mod_cast this
    have hle : |(n : ℚ)| ≤ 16777216 := by exact_mod_cast h
    have hpos : 0 < |(n : ℚ)| := lt_of_lt_of_le one_pos habs
    have h0 : 0 ≤ Int.log 2 |(n : ℚ)| :=
      (Int.zpow_le_iff_le_log (by norm_num) hpos).mp (by simpa using habs)
    have h25 : Int.log 2 |(n : ℚ)| < 25 :=
      (Int.lt_zpow_iff_log_lt (by norm_num) hpos).mp
        (lt_of_le_of_lt hle (by norm_num))
    have hulp : binary32Ulp (n : ℚ) = (2 : ℚ) ^ (Int.log 2 |(n : ℚ)| - 23) := by
      unfold binary32Ulp
      rw [max_eq_left (by omega)]
    have hcases : Int.log 2 |(n : ℚ)| = 24 ∨ Int.log 2 |(n : ℚ)| ≤ 23 := by omega
    rcases hcases with h24 | h23
    · have hge : (2 : ℚ) ^ (24 : Int) ≤ |(n : ℚ)| := by
        have := Int.zpow_log_le_self (b := 2) (by norm_num) hpos
        rw [h24] at this
        exact_mod_cast this
      have heq : |(n : ℚ)| = 16777216 := le_antisymm hle (by norm_num at hge; exact hge)
      have heqZ : |n| = 16777216 := by exact_mod_cast heq
      rcases abs_eq (by norm_num : (0 : Int) ≤ 16777216) |>.mp heqZ with h1 | h1
      · apply roundBinary32_of_div_intCast _ 8388608
        rw [hulp, h24, h1]
        norm_num
      · apply roundBinary32_of_div_intCast _ (-8388608)
        rw [hulp, h24, h1]
        norm_num
    · obtain ⟨k, hk⟩ : ∃ k : ℕ, (k : Int) = 23 - Int.log 2 |(n : ℚ)| :=
        ⟨(23 - Int.log 2 |(n : ℚ)|).toNat, Int.toNat_of_nonneg (by omega)⟩
      apply roundBinary32_of_div_intCast _ (n * 2 ^ k)
      have hexp : Int.log 2 |(n : ℚ)| - 23 = -(k : Int) := by omega
      rw [hulp, hexp, zpow_neg, zpow_natCast, div_inv_eq_mul]
      push_cast
      ring

theorem roundBinary32_of_binade (q : ℚ) (e m : Int) (hlo : (2 : ℚ) ^ e ≤ |q|)
    (hhi : |q| < (2 : ℚ) ^ (e + 1)) (he : -126 ≤ e)
    (hm : roundHalfEven (q / (2 : ℚ) ^ (e - 23)) = m) :
    roundBinary32 q = (m : ℚ) * (2 : ℚ) ^ (e - 23) := by
  unfold roundBinary32
  rw [binary32Ulp_of_binade q e hlo hhi he, hm]

/-- The odd number `2 ^ 24 + 1` lies half-way between two binary32 values and
is rounded to `2 ^ 24`. -/
theorem roundBinary32_16777217 : roundBinary32 16777217 = 16777216 := by
  have hf : ⌊(16777217 / 2 : ℚ)⌋ = 8388608 := by
    rw [Int.floor_eq_iff]
    norm_num
  have hm : roundHalfEven ((16777217 : ℚ) / (2 : ℚ) ^ ((24 : Int) - 23)) = 8388608 := by
    have : (16777217 : ℚ) / (2 : ℚ) ^ ((24 : Int) - 23) = 16777217 / 2 := by norm_num
    rw [this]
    unfold roundHalfEven
    rw [hf]
    norm_num
  rw [roundBinary32_of_binade 16777217 24 8388608 (by norm_num [abs_of_pos])
    (by norm_num [abs_of_pos]) (by norm_num) hm]
  norm_num

/-- The sum of the reel tick is exact while the offset and the sum have
magnitude at most `2 ^ 24`. -/
theorem tick_sum_exact (o k : Int) (ho : |o| ≤ 16777216) (hs : |o + k| ≤ 16777216) :
    floatToInt (floatAdd (intToFloat o) (k : ℚ)) = o + k := by
  unfold floatAdd intToFloat
  rw [roundBinary32_intCast o ho, ← Int.cast_add, roundBinary32_intCast (o + k) hs,
    floatToInt_intCast]

theorem tick_sum_nonneg (o : Int) (v : ℚ) (ho : 0 ≤ o) (hv : 0 ≤ v) :
    0 ≤ floatToInt (floatAdd (intToFloat o) v) := by
  apply floatToInt_nonneg
  apply roundBinary32_nonneg
  exact add_nonneg (roundBinary32_nonneg _ (by exact_mod_cast ho)) hv

/-! ## Claims on `wraparound` -/

/-- C1: the range property `lo <= wraparound(v, lo, hi) < hi` evaluated at
`v = -3`, `lo = 0`, `hi = 3`, an exact negative multiple of the period: the
function returns `3`, the excluded upper end of the interval. -/
theorem wraparound_returns_max_at_negative_multiple :
    wraparound (-3) 0 3 = 3 ∧ ¬ (0 ≤ wraparound (-3) 0 3 ∧ wraparound (-3) 0 3 < 3) := by
  decide

/-- C2: idempotence evaluated at `v = -3`, `lo = 0`, `hi = 3`: the first
application returns `3`, the second one returns `0`. -/
theorem wraparound_not_idempotent_at_negative_multiple :
    wraparound (-3) 0 3 = 3 ∧ wraparound (wraparound (-3) 0 3) 0 3 = 0 ∧
      wraparound (wraparound (-3) 0 3) 0 3 ≠ wraparound (-3) 0 3 := by
  decide

/-- C3: the formula `min + ((value - min) mod (max - min))` for `value >= max`
evaluated at `value = 8`, `min = 5`, `max = 8`: the formula gives `5`, the
function reduces `value` itself and returns `5 + 8 % 3 = 7`. -/
theorem wraparound_above_max_ignores_min_offset :
    wraparound 8 5 8 = 7 ∧ (5 : Int) + (8 - 5) % (8 - 5) = 5 ∧
      wraparound 8 5 8 ≠ 5 + (8 - 5) % (8 - 5) := by
  decide

/-! ## Claim on `collision` -/

/-- C4: `collision` is membership in the closed rectangle; with non-negative
width and height both corners are hits; a point one unit outside any of the
four edges is a miss. -/
theorem collision_iff_closed_rect (x y : ℚ) (rect : SDL_FRect) :
    (collision x y rect = true ↔
      (rect.x ≤ x ∧ x ≤ rect.x + rect.w) ∧ (rect.y ≤ y ∧ y ≤ rect.y + rect.h)) ∧
    (0 ≤ rect.w → 0 ≤ rect.h →
      collision rect.x rect.y rect = true ∧
        collision (rect.x + rect.w) (rect.y + rect.h) rect = true) ∧
    (collision (rect.x - 1) y rect = false ∧
      collision (rect.x + rect.w + 1) y rect = false ∧
      collision x (rect.y - 1) rect = false ∧
      collision x (rect.y + rect.h + 1) rect = false) := by
  refine ⟨?_, ?_, ?_⟩
  · simp [collision, and_assoc]
  · intro hw hh
    simp [collision, hw, hh]
  · simp [collision]

/-- C4 at the start button `{650, 10, 150, 60}` and the point `(700, 30)`. -/
theorem collision_iff_closed_rect_witness :
    collision 700 30 ⟨650, 10, 150, 60⟩ = true ∧
      collision 650 10 ⟨650, 10, 150, 60⟩ = true ∧
      collision (650 + 150) (10 + 60) ⟨650, 10, 150, 60⟩ = true ∧
      collision (650 - 1) 30 ⟨650, 10, 150, 60⟩ = false := by
  have h := collision_iff_closed_rect 700 30 ⟨650, 10, 150, 60⟩
  refine ⟨h.1.2 (by norm_num), (h.2.1 (by norm_num) (by norm_num)).1,
    (h.2.1 (by norm_num) (by norm_num)).2, h.2.2.1⟩

/-! ## The dispatcher and the state switch of a frame -/

theorem StateMachine.transition_injective (sm : StateMachine) :
    Function.Injective sm.transition := by
  intro a b h
  cases a <;> cases b <;> first | rfl | cases h

theorem StateMachine.transition_id (sm : StateMachine) (p : BaseGameStatePtr) :
    sm.transition p.id = p := by
  cases p <;> rfl

/-- C5: the state switch at the end of a frame.  With `s` the identifier of the
active state and `decided` the identifier its `transition` returns: when
`decided = s` the switch makes no call of `exit` or `enter` and changes nothing
but the call record; otherwise it calls `exit` of the old state once, then
`enter` of the new state once, and the new state is active.  The dispatcher
sends distinct identifiers to distinct state objects, and the object it returns
does not depend on the contents of the machine. -/
theorem switchState_at_most_one_transition (enterClock : ℚ) (m : MainLoop) (s : States)
    (hcur : m.currentState = m.stateMachine.transition s) :
    (BaseGameState.transition m.currentState m.stateMachine m.context = s →
      switchState enterClock m =
        { m with calls := m.calls ++ [Call.transition m.currentState s] }) ∧
    (BaseGameState.transition m.currentState m.stateMachine m.context ≠ s →
      switchState enterClock m =
        { context :=
            (BaseGameState.enter
              (m.stateMachine.transition
                (BaseGameState.transition m.currentState m.stateMachine m.context))
              enterClock
              (BaseGameState.exit m.currentState m.stateMachine m.context).1
              (BaseGameState.exit m.currentState m.stateMachine m.context).2).2
          stateMachine :=
            (BaseGameState.enter
              (m.stateMachine.transition
                (BaseGameState.transition m.currentState m.stateMachine m.context))
              enterClock
              (BaseGameState.exit m.currentState m.stateMachine m.context).1
              (BaseGameState.exit m.currentState m.stateMachine m.context).2).1
          currentState :=
            m.stateMachine.transition
              (BaseGameState.transition m.currentState m.stateMachine m.context)
          isRunning := m.isRunning
          calls :=
            m.calls ++
              [Call.transition m.currentState
                 (BaseGameState.transition m.currentState m.stateMachine m.context),
               Call.exit (m.stateMachine.transition s),
               Call.enter
                 (m.stateMachine.transition
                   (BaseGameState.transition m.currentState m.stateMachine m.context))] }) ∧
    Function.Injective m.stateMachine.transition ∧
    (∀ other : StateMachine, ∀ i : States, other.transition i = m.stateMachine.transition i) := by
  refine ⟨?_, ?_, StateMachine.transition_injective _, fun _ _ => rfl⟩
  · intro hdec
    unfold switchState
    simp only [hdec, ← hcur, ne_eq, not_true_eq_false, if_false]
  · intro hdec
    have hne : m.stateMachine.transition
        (BaseGameState.transition m.currentState m.stateMachine m.context) ≠ m.currentState := by
      intro h
      exact hdec (StateMachine.transition_injective m.stateMachine (h.trans hcur))
    unfold switchState
    simp only [hne, ne_eq, not_false_eq_true, if_true, ← hcur, List.append_assoc,
      List.singleton_append]

/-- C5 at two concrete machines with `Idle` active: with the start flag clear
the switch only records the decision; with the flag set it records `exit` of
`Idle` and then `enter` of `Rolling`, and `Rolling` is active. -/
theorem switchState_at_most_one_transition_witness :
    switchState 5 { context := {}, currentState := BaseGameStatePtr.idleState } =
      { context := {}, currentState := BaseGameStatePtr.idleState,
        calls := [Call.transition BaseGameStatePtr.idleState States.Idle] } ∧
    (switchState 5
        { context := {}, stateMachine := { idleState := { isStartButtonPushed := true } },
          currentState := BaseGameStatePtr.idleState }).calls =
      [Call.transition BaseGameStatePtr.idleState States.Rolling,
       Call.exit BaseGameStatePtr.idleState, Call.enter BaseGameStatePtr.rollingState] ∧
    (switchState 5
        { context := {}, stateMachine := { idleState := { isStartButtonPushed := true } },
          currentState := BaseGameStatePtr.idleState }).currentState =
      BaseGameStatePtr.rollingState := by
  refine ⟨?_, ?_, ?_⟩
  · exact (switchState_at_most_one_transition 5
      { context := {}, currentState := BaseGameStatePtr.idleState } States.Idle rfl).1 rfl
  · rw [(switchState_at_most_one_transition 5
      { context := {}, stateMachine := { idleState := { isStartButtonPushed := true } },
        currentState := BaseGameStatePtr.idleState } States.Idle rfl).2.1 (by decide)]
    rfl
  · rw [(switchState_at_most_one_transition 5
      { context := {}, stateMachine := { idleState := { isStartButtonPushed := true } },
        currentState := BaseGameStatePtr.idleState } States.Idle rfl).2.1 (by decide)]
    rfl

/-! ## The transition decisions -/

/-- C6: each state's `transition` returns its own identifier or its successor
in the cycle Idle, Rolling, EndRolling, RewardPresentation, Idle, and returns
the successor exactly when the state's trigger flag holds. -/
theorem transition_follows_cycle (context : GameContext) :
    (∀ self : Idle,
      (self.transition context = States.Rolling ↔ self.isStartButtonPushed = true) ∧
      (self.transition context = States.Idle ↔ self.isStartButtonPushed = false) ∧
      (self.transition context = States.Idle ∨ self.transition context = States.Rolling)) ∧
    (∀ self : Rolling,
      (self.transition context = States.EndRolling ↔
        (self.isStopButtonPushed = true ∨ self.isTimerUp = true)) ∧
      (self.transition context = States.Rolling ↔
        (self.isStopButtonPushed = false ∧ self.isTimerUp = false)) ∧
      (self.transition context = States.Rolling ∨
        self.transition context = States.EndRolling)) ∧
    (∀ self : EndRolling,
      (self.transition context = States.RewardPresentation ↔ self.isDrumsStoped = true) ∧
      (self.transition context = States.EndRolling ↔ self.isDrumsStoped = false) ∧
      (self.transition context = States.EndRolling ∨
        self.transition context = States.RewardPresentation)) ∧
    (∀ self : RewardPresentation,
      (self.transition context = States.Idle ↔ self.shouldBeginNextCycle = true) ∧
      (self.transition context = States.RewardPresentation ↔
        self.shouldBeginNextCycle = false) ∧
      (self.transition context = States.RewardPresentation ∨
        self.transition context = States.Idle)) := by
  refine ⟨?_, ?_, ?_, ?_⟩
  · intro self
    cases h : self.isStartButtonPushed <;> simp [Idle.transition, h]
  · intro self
    cases h1 : self.isStopButtonPushed <;> cases h2 : self.isTimerUp <;>
      simp [Rolling.transition, h1, h2]
  · intro self
    cases h : self.isDrumsStoped <;> simp [EndRolling.transition, h]
  · intro self
    cases h : self.shouldBeginNextCycle <;> simp [RewardPresentation.transition, h]

/-! ## Frames -/

/-- C7: with `Idle` active, a frame whose only event is a pointer-down inside
the closed rectangle of the start button makes these calls, in this order:
`handleEvent`, `update`, `render`, `transition` (returning `Rolling`), `exit`
of `Idle`, `enter` of `Rolling`; afterwards `Rolling` is active. -/
theorem frame_idle_click_on_start (m : MainLoop) (click : SDL_Event)
    (updateClock enterClock : ℚ)
    (hcur : m.currentState = BaseGameStatePtr.idleState)
    (htype : click.type = SDL_EventType.SDL_EVENT_MOUSE_BUTTON_DOWN)
    (hx : m.context.startButton.layout.x ≤ click.button.x ∧
      click.button.x ≤ m.context.startButton.layout.x + m.context.startButton.layout.w)
    (hy : m.context.startButton.layout.y ≤ click.button.y ∧
      click.button.y ≤ m.context.startButton.layout.y + m.context.startButton.layout.h) :
    (frame { events := [click], updateClock := updateClock, enterClock := enterClock } m).calls =
      m.calls ++
        [Call.handleEvent BaseGameStatePtr.idleState,
         Call.update BaseGameStatePtr.idleState,
         Call.render BaseGameStatePtr.idleState,
         Call.transition BaseGameStatePtr.idleState States.Rolling,
         Call.exit BaseGameStatePtr.idleState,
         Call.enter BaseGameStatePtr.rollingState] ∧
    (frame { events := [click], updateClock := updateClock, enterClock := enterClock }
      m).currentState = BaseGameStatePtr.rollingState := by
  have hhit : collision click.button.x click.button.y m.context.startButton.layout = true := by
    simp [collision, hx.1, hx.2, hy.1, hy.2]
  obtain ⟨context, stateMachine, currentState, isRunning, calls⟩ := m
  simp only at hcur hhit
  subst hcur
  simp [frame, pollEvents, pollEvent, updateAndRender, switchState, BaseGameState.handleEvent,
    BaseGameState.update, BaseGameState.render, BaseGameState.transition, BaseGameState.exit,
    BaseGameState.enter, Idle.handleEvent, Idle.update, Idle.transition, Idle.exit,
    Rolling.enter, StateMachine.transition, htype, hhit]

/-- C7 at the start button `{650, 10, 150, 60}` with a click at `(700, 30)`. -/
theorem frame_idle_click_on_start_witness :
    (frame
        { events := [{ type := SDL_EventType.SDL_EVENT_MOUSE_BUTTON_DOWN,
                       button := { x := 700, y := 30 } }],
          updateClock := 1, enterClock := 2 }
        { context := { startButton := { layout := { x := 650, y := 10, w := 150, h := 60 } } },
          currentState := BaseGameStatePtr.idleState }).calls =
      [] ++
        [Call.handleEvent BaseGameStatePtr.idleState,
         Call.update BaseGameStatePtr.idleState,
         Call.render BaseGameStatePtr.idleState,
         Call.transition BaseGameStatePtr.idleState States.Rolling,
         Call.exit BaseGameStatePtr.idleState,
         Call.enter BaseGameStatePtr.rollingState] ∧
    (frame
        { events := [{ type := SDL_EventType.SDL_EVENT_MOUSE_BUTTON_DOWN,
                       button := { x := 700, y := 30 } }],
          updateClock := 1, enterClock := 2 }
        { context := { startButton := { layout := { x := 650, y := 10, w := 150, h := 60 } } },
          currentState := BaseGameStatePtr.idleState }).currentState =
      BaseGameStatePtr.rollingState :=
  frame_idle_click_on_start
    { context := { startButton := { layout := { x := 650, y := 10, w := 150, h := 60 } } },
      currentState := BaseGameStatePtr.idleState }
    { type := SDL_EventType.SDL_EVENT_MOUSE_BUTTON_DOWN, button := { x := 700, y := 30 } }
    1 2 rfl rfl (by constructor <;> norm_num) (by constructor <;> norm_num)

/-- C8: `Rolling::enter` records the clock reading as the start time, handling
events and updating leave the start time and the 3-second duration as they are,
and an `update` whose clock reading is at least 3 seconds after the start time
sets `isTimerUp`; the `transition` that follows returns `EndRolling` whatever
the stop-button flag is. -/
theorem rolling_timer_up_after_three_seconds (self : Rolling) (context : GameContext) (now : ℚ)
    (hduration : self.timerDuration = 3) (hnow : now - self.startTime ≥ 3) :
    (Rolling.update now self context).1.isTimerUp = true ∧
    (Rolling.update now self context).1.transition (Rolling.update now self context).2 =
      States.EndRolling ∧
    (Rolling.update now self context).1.isStopButtonPushed = self.isStopButtonPushed ∧
    (∀ (t : ℚ) (r : Rolling) (c : GameContext),
      (Rolling.enter t r c).1.startTime = t ∧
      (Rolling.enter t r c).1.timerDuration = r.timerDuration) ∧
    (∀ (r : Rolling) (c : GameContext) (e : SDL_Event),
      (Rolling.handleEvent r c e).1.startTime = r.startTime ∧
      (Rolling.handleEvent r c e).1.timerDuration = r.timerDuration) ∧
    (∀ (t : ℚ) (r : Rolling) (c : GameContext),
      (Rolling.update t r c).1.startTime = r.startTime ∧
      (Rolling.update t r c).1.timerDuration = r.timerDuration) := by
  have hup : (Rolling.update now self context).1.isTimerUp = true := by
    simp only [Rolling.update, hduration, decide_eq_true_eq]
    exact hnow
  refine ⟨hup, ?_, rfl, fun _ _ _ => ⟨rfl, rfl⟩, ?_, fun _ _ _ => ⟨rfl, rfl⟩⟩
  · simp only [Rolling.transition, hup, Bool.or_true, if_true]
  · intro r c e
    unfold Rolling.handleEvent
    split_ifs <;> exact ⟨rfl, rfl⟩

/-- C8 at a state entered at time 10 and updated at time 13, with no click. -/
theorem rolling_timer_up_after_three_seconds_witness :
    (Rolling.update 13 (Rolling.enter 10 {} {}).1 (Rolling.enter 10 {} {}).2).1.isTimerUp
        = true ∧
    (Rolling.update 13 (Rolling.enter 10 {} {}).1 (Rolling.enter 10 {} {}).2).1.transition
        (Rolling.update 13 (Rolling.enter 10 {} {}).1 (Rolling.enter 10 {} {}).2).2 =
      States.EndRolling := by
  have h := rolling_timer_up_after_three_seconds (Rolling.enter 10 {} {}).1
    (Rolling.enter 10 {} {}).2 13 rfl (by norm_num [Rolling.enter])
  exact ⟨h.1, h.2.1⟩

/-! ### Events that are not a pointer-down -/

theorem idle_handleEvent_of_not_click (self : Idle) (context : GameContext) (event : SDL_Event)
    (h : event.type ≠ SDL_EventType.SDL_EVENT_MOUSE_BUTTON_DOWN) :
    Idle.handleEvent self context event = (self, context) := by
  simp [Idle.handleEvent, h]

theorem rolling_handleEvent_of_not_click (self : Rolling) (context : GameContext)
    (event : SDL_Event) (h : event.type ≠ SDL_EventType.SDL_EVENT_MOUSE_BUTTON_DOWN) :
    Rolling.handleEvent self context event = (self, context) := by
  simp [Rolling.handleEvent, h]

theorem reward_handleEvent_of_not_click (self : RewardPresentation)
    (context : GameContext) (event : SDL_Event)
    (h : event.type ≠ SDL_EventType.SDL_EVENT_MOUSE_BUTTON_DOWN) :
    (RewardPresentation.handleEvent self context event).1.shouldBeginNextCycle = false := by
  simp [RewardPresentation.handleEvent, h]

theorem reward_handleEvent_of_click (self : RewardPresentation)
    (context : GameContext) (event : SDL_Event)
    (h : event.type = SDL_EventType.SDL_EVENT_MOUSE_BUTTON_DOWN) :
    (RewardPresentation.handleEvent self context event).1.transition context = States.Idle := by
  simp [RewardPresentation.handleEvent, RewardPresentation.transition, h]

/-- C9: a frame in `RewardPresentation` whose events are a pointer-down
followed by an event of another kind: the second `handleEvent` overwrites the
flag set by the click, the decision of the frame is `RewardPresentation`, and
neither `exit` nor `enter` is called. -/
theorem frame_reward_click_then_other_event_stays :
    (frame
        { events := [{ type := SDL_EventType.SDL_EVENT_MOUSE_BUTTON_DOWN,
                       button := { x := 700, y := 30 } },
                     { type := SDL_EventType.other }] }
        { context := {}, currentState := BaseGameStatePtr.rewardPresentationState }).calls =
      [Call.handleEvent BaseGameStatePtr.rewardPresentationState,
       Call.handleEvent BaseGameStatePtr.rewardPresentationState,
       Call.update BaseGameStatePtr.rewardPresentationState,
       Call.render BaseGameStatePtr.rewardPresentationState,
       Call.transition BaseGameStatePtr.rewardPresentationState States.RewardPresentation] ∧
    (frame
        { events := [{ type := SDL_EventType.SDL_EVENT_MOUSE_BUTTON_DOWN,
                       button := { x := 700, y := 30 } },
                     { type := SDL_EventType.other }] }
        { context := {}, currentState := BaseGameStatePtr.rewardPresentationState }).currentState =
      BaseGameStatePtr.rewardPresentationState := by
  constructor <;> rfl

/-! ## `EndRolling::update` -/

theorem EndRolling.updateDrum_flag (texture : SDL_Texture) (drum : Drum) (flag : Bool) :
    (EndRolling.updateDrum texture drum flag).2 = true ↔
      flag = true ∧ texture.w ∣ (EndRolling.updateDrum texture drum flag).1.scrollingOffset := by
  simp only [EndRolling.updateDrum, Bool.and_eq_true, decide_eq_true_eq]
  constructor
  · rintro ⟨h1, h2⟩
    exact ⟨h1, Int.dvd_of_tmod_eq_zero h2⟩
  · rintro ⟨h1, h2⟩
    exact ⟨h1, Int.tmod_eq_zero_of_dvd h2⟩

theorem EndRolling.updateDrum_of_dvd (texture : SDL_Texture) (drum : Drum) (flag : Bool)
    (h : texture.w ∣ drum.scrollingOffset) :
    EndRolling.updateDrum texture drum flag = (drum, flag) := by
  have h0 : Int.tmod drum.scrollingOffset texture.w = 0 := Int.tmod_eq_zero_of_dvd h
  simp [EndRolling.updateDrum, h0]

theorem EndRolling.updateDrums_flag (texture : SDL_Texture) (drums : List Drum) (flag : Bool) :
    (EndRolling.updateDrums texture drums flag).2 = true ↔
      flag = true ∧
        ∀ drum ∈ (EndRolling.updateDrums texture drums flag).1,
          texture.w ∣ drum.scrollingOffset := by
  induction drums generalizing flag with
  | nil => simp [EndRolling.updateDrums]
  | cons drum rest ih =>
    simp only [EndRolling.updateDrums, List.mem_cons, forall_eq_or_imp]
    rw [ih, EndRolling.updateDrum_flag]
    tauto

theorem EndRolling.updateDrums_of_dvd (texture : SDL_Texture) (drums : List Drum) (flag : Bool)
    (h : ∀ drum ∈ drums, texture.w ∣ drum.scrollingOffset) :
    EndRolling.updateDrums texture drums flag = (drums, flag) := by
  induction drums generalizing flag with
  | nil => rfl
  | cons drum rest ih =>
    have hd := EndRolling.updateDrum_of_dvd texture drum flag (h drum (List.mem_cons_self _ _))
    have hr := ih flag (fun d hmem => h d (List.mem_cons_of_mem _ hmem))
    simp only [EndRolling.updateDrums, hd, hr]

/-- C10: after `EndRolling::update` the flag `isDrumsStoped` is true exactly
when every reel's offset after the update is a multiple of the cell height (the
texture width); when every reel starts at a multiple of the cell height the
update leaves the context as it is, sets the flag, and `transition` returns
`RewardPresentation`. -/
theorem endRolling_update_settled_iff (self : EndRolling) (context : GameContext) :
    ((EndRolling.update self context).1.isDrumsStoped = true ↔
      ∀ drum ∈ (EndRolling.update self context).2.drums,
        context.drumTexture.w ∣ drum.scrollingOffset) ∧
    ((∀ drum ∈ context.drums, context.drumTexture.w ∣ drum.scrollingOffset) →
      (EndRolling.update self context).2 = context ∧
      (EndRolling.update self context).1.isDrumsStoped = true ∧
      (EndRolling.update self context).1.transition (EndRolling.update self context).2 =
        States.RewardPresentation) := by
  constructor
  · simp only [EndRolling.update]
    rw [EndRolling.updateDrums_flag]
    simp
  · intro h
    have hd := EndRolling.updateDrums_of_dvd context.drumTexture context.drums true h
    simp [EndRolling.update, EndRolling.transition, hd]

/-- C10 at a 64 x 640 texture with the four reels at offsets 0, 64, 128 and 192. -/
theorem endRolling_update_settled_iff_witness :
    (EndRolling.update {}
        { drumTexture := { w := 64, h := 640 },
          drums := [{ scrollingOffset := 0, velocity := 2 },
                    { scrollingOffset := 64, velocity := 4 },
                    { scrollingOffset := 128, velocity := 7 },
                    { scrollingOffset := 192, velocity := 9 }] }).2 =
      { drumTexture := { w := 64, h := 640 },
        drums := [{ scrollingOffset := 0, velocity := 2 },
                  { scrollingOffset := 64, velocity := 4 },
                  { scrollingOffset := 128, velocity := 7 },
                  { scrollingOffset := 192, velocity := 9 }] } ∧
    (EndRolling.update {}
        { drumTexture := { w := 64, h := 640 },
          drums := [{ scrollingOffset := 0, velocity := 2 },
                    { scrollingOffset := 64, velocity := 4 },
                    { scrollingOffset := 128, velocity := 7 },
                    { scrollingOffset := 192, velocity := 9 }] }).1.isDrumsStoped = true := by
  have h := (endRolling_update_settled_iff {}
    { drumTexture := { w := 64, h := 640 },
      drums := [{ scrollingOffset := 0, velocity := 2 },
                { scrollingOffset := 64, velocity := 4 },
                { scrollingOffset := 128, velocity := 7 },
                { scrollingOffset := 192, velocity := 9 }] }).2
    (by
      intro drum hmem
      simp only [List.mem_cons, List.mem_singleton, List.not_mem_nil, or_false] at hmem
      rcases hmem with rfl | rfl | rfl | rfl <;> decide)
  exact ⟨h.1, h.2.1⟩

/-! ## `wraparound` on the inputs of the reel engine -/

/-- C19: on a non-negative value and the interval `[0, hi)` with `hi > 0`,
`wraparound` is reduction modulo `hi`; on a value already inside `[lo, hi)` it
is the identity. -/
theorem wraparound_exact_on_reel_inputs :
    (∀ v hi : Int, 0 ≤ v → 0 < hi → wraparound v 0 hi = v % hi) ∧
    (∀ v lo hi : Int, lo ≤ v → v < hi → wraparound v lo hi = v) :=
  ⟨wraparound_zero_of_nonneg, wraparound_of_mem⟩

/-- C19 at `wraparound(645, 0, 640)` and `wraparound(6, 5, 8)`. -/
theorem wraparound_exact_on_reel_inputs_witness :
    wraparound 645 0 640 = 645 % 640 ∧ wraparound 6 5 8 = 6 :=
  ⟨wraparound_exact_on_reel_inputs.1 645 640 (by decide) (by decide),
    wraparound_exact_on_reel_inputs.2 6 5 8 (by decide) (by decide)⟩

/-! ## Exit actions -/

/-- C14 as stated, at a `Rolling` state whose timer flag is set: `Rolling::exit`
leaves `isTimerUp` set. -/
theorem rolling_exit_keeps_timer_flag_set :
    (Rolling.exit { isStopButtonPushed := true, isTimerUp := true } {}).1.isTimerUp = true ∧
    ¬ ((Rolling.exit { isStopButtonPushed := true, isTimerUp := true } {}).1.isStopButtonPushed
          = false ∧
        (Rolling.exit { isStopButtonPushed := true, isTimerUp := true } {}).1.isTimerUp
          = false) := by
  constructor
  · rfl
  · rintro ⟨-, h⟩
    exact Bool.noConfusion h

/-- C14, amended: after `exit` the flag that `exit` of that state assigns is
false (Idle: `isStartButtonPushed`; Rolling: `isStopButtonPushed`; EndRolling:
`isDrumsStoped`; RewardPresentation: `shouldBeginNextCycle`).  `Rolling::exit`
leaves `isTimerUp` as it was; every `Rolling::update` assigns `isTimerUp` anew
from the clock and the start time, whatever its value was before. -/
theorem exit_resets_assigned_flags (context : GameContext) :
    (∀ self : Idle, (self.exit context).1.isStartButtonPushed = false) ∧
    (∀ self : Rolling, (self.exit context).1.isStopButtonPushed = false) ∧
    (∀ self : EndRolling, (self.exit context).1.isDrumsStoped = false) ∧
    (∀ self : RewardPresentation, (self.exit context).1.shouldBeginNextCycle = false) ∧
    (∀ self : Rolling, (self.exit context).1.isTimerUp = self.isTimerUp) ∧
    (∀ (self : Rolling) (now : ℚ) (stale : Bool),
      (Rolling.update now { self with isTimerUp := stale } context).1.isTimerUp =
        decide (now - self.startTime ≥ self.timerDuration)) :=
  ⟨fun _ => rfl, fun _ => rfl, fun _ => rfl, fun _ => rfl, fun _ => rfl, fun _ _ _ => rfl⟩

/-! ## The labels of `RewardPresentation::render` -/

/-- C15: for an offset `o >= 0` and a cell height `c > 0` (the texture width)
the label of a reel is the decimal text of `o / c + 1`; at `o = i * c` it is the
text of `i + 1`, at `o = 3 * c` it is `"4"`; for `o < H` with `c` dividing `H`
the index lies in `1 .. H / c`; two reels with the same offset get the same
label; `render` builds one such label for each reel. -/
theorem reward_label_is_cell_index (texture : SDL_Texture) (drum : Drum)
    (hoffset : 0 ≤ drum.scrollingOffset) (hcell : 0 < texture.w) :
    RewardPresentation.label texture drum = toString (drum.scrollingOffset / texture.w + 1) ∧
    (∀ i : Int, drum.scrollingOffset = i * texture.w →
      RewardPresentation.label texture drum = toString (i + 1)) ∧
    (drum.scrollingOffset = 3 * texture.w → RewardPresentation.label texture drum = "4") ∧
    (∀ H : Int, texture.w ∣ H → drum.scrollingOffset < H →
      1 ≤ drum.scrollingOffset / texture.w + 1 ∧
        drum.scrollingOffset / texture.w + 1 ≤ H / texture.w) ∧
    (∀ other : Drum, other.scrollingOffset = drum.scrollingOffset →
      RewardPresentation.label texture other = RewardPresentation.label texture drum) ∧
    (∀ context : GameContext,
      RewardPresentation.renderLabels context =
        context.drums.map (RewardPresentation.label context.drumTexture)) := by
  have hdiv : Int.tdiv drum.scrollingOffset texture.w = drum.scrollingOffset / texture.w :=
    Int.tdiv_eq_ediv hoffset (le_of_lt hcell)
  have hne : texture.w ≠ 0 := ne_of_gt hcell
  have hmul : ∀ i : Int, drum.scrollingOffset = i * texture.w →
      RewardPresentation.label texture drum = toString (i + 1) := by
    intro i hi
    rw [RewardPresentation.label, std_to_string, hdiv, hi, Int.mul_ediv_cancel _ hne]
  refine ⟨?_, hmul, ?_, ?_, ?_, fun _ => rfl⟩
  · simp only [RewardPresentation.label, std_to_string, hdiv]
  · intro h3
    rw [hmul 3 h3]
    rfl
  · intro H hH hlt
    have h0 : 0 ≤ drum.scrollingOffset / texture.w := Int.ediv_nonneg hoffset (le_of_lt hcell)
    obtain ⟨q, rfl⟩ := hH
    have hq : drum.scrollingOffset / texture.w < q :=
      Int.ediv_lt_of_lt_mul hcell (by rw [Int.mul_comm] at hlt; exact hlt)
    rw [Int.mul_ediv_cancel_left _ hne]
    omega
  · intro other hother
    simp only [RewardPresentation.label, hother]

/-- C15 at a 64 x 640 texture and a reel at offset `192 = 3 * 64`. -/
theorem reward_label_is_cell_index_witness :
    RewardPresentation.label { w := 64, h := 640 } { scrollingOffset := 192, velocity := 7 } = "4" ∧
    (1 : Int) ≤ 192 / 64 + 1 ∧ (192 : Int) / 64 + 1 ≤ 640 / 64 := by
  have h := reward_label_is_cell_index { w := 64, h := 640 }
    { scrollingOffset := 192, velocity := 7 } (by decide) (by decide)
  exact ⟨h.2.2.1 (by decide), h.2.2.2.1 640 (by decide) (by decide)⟩

/-! ## Start-up failures -/

theorem initGameContext_eq_none_iff (platform : Platform) :
    initGameContext platform = none ↔
      platform.window = false ∨ platform.renderer = false ∨ platform.drumTexture = none := by
  unfold initGameContext
  cases hw : platform.window <;> cases hr : platform.renderer <;>
    cases ht : platform.drumTexture <;> simp

theorem main_exit_code_of_no_context (platform : Platform) (enterClock : ℚ)
    (frames : List FrameInput) (h : initGameContext platform = none) :
    main platform enterClock frames = { exitCode := some 1, calls := [] } := by
  unfold main
  rw [h]
  split_ifs <;> rfl

/-- C16: start-up with the window, the renderer and the reel texture acquired
and `TTF_OpenFont` failing: `initGameContext` returns a context, `main` enters
`Idle` and runs the frame loop, and on a quit event it exits with code 0. -/
theorem main_runs_frame_loop_when_font_fails :
    (initGameContext { drumTexture := some { w := 64, h := 640 }, font := false }).isSome
      = true ∧
    (main { drumTexture := some { w := 64, h := 640 }, font := false } 0
        [{ events := [{ type := SDL_EventType.SDL_EVENT_QUIT }] }]).exitCode = some 0 ∧
    (main { drumTexture := some { w := 64, h := 640 }, font := false } 0
        [{ events := [{ type := SDL_EventType.SDL_EVENT_QUIT }] }]).calls =
      [Call.enter BaseGameStatePtr.idleState,
       Call.handleEvent BaseGameStatePtr.idleState,
       Call.update BaseGameStatePtr.idleState,
       Call.render BaseGameStatePtr.idleState,
       Call.transition BaseGameStatePtr.idleState States.Idle] := by
  refine ⟨rfl, rfl, rfl⟩

/-! ## Hold at rest in `EndRolling::update` -/

theorem EndRolling.updateDrum_of_not_dvd (texture : SDL_Texture) (drum : Drum) (flag : Bool)
    (h : ¬ texture.w ∣ drum.scrollingOffset) :
    (EndRolling.updateDrum texture drum flag).1 = Rolling.updateDrum texture drum := by
  have h0 : Int.tmod drum.scrollingOffset texture.w ≠ 0 :=
    fun hz => h (Int.dvd_of_tmod_eq_zero hz)
  simp [EndRolling.updateDrum, Rolling.updateDrum, h0]

theorem EndRolling.updateDrums_fst (texture : SDL_Texture) (drums : List Drum) (flag : Bool) :
    (EndRolling.updateDrums texture drums flag).1 =
      drums.map fun drum => (EndRolling.updateDrum texture drum true).1 := by
  induction drums generalizing flag with
  | nil => rfl
  | cons drum rest ih =>
    simp only [EndRolling.updateDrums, List.map_cons, ih]
    rfl

theorem endRolling_update_context (self : EndRolling) (context : GameContext) :
    (EndRolling.update self context).2 =
      { context with
        drums := context.drums.map fun drum =>
          (EndRolling.updateDrum context.drumTexture drum true).1 } := by
  simp only [EndRolling.update, EndRolling.updateDrums_fst]

theorem rolling_update_context (now : ℚ) (self : Rolling) (context : GameContext) :
    (Rolling.update now self context).2 =
      { context with drums := context.drums.map (Rolling.updateDrum context.drumTexture) } :=
  rfl

theorem dvd_emod_of_dvd (c H x : Int) (hcH : c ∣ H) (hx : c ∣ x) : c ∣ x % H := by
  rw [Int.emod_def]
  exact Int.dvd_sub hx (Dvd.dvd.mul_right hcH _)

theorem rolling_updateDrum_offset (texture : SDL_Texture) (drum : Drum) (k : Int)
    (hH : 0 < texture.h) (hk : 0 ≤ k) (hvel : drum.velocity = (k : ℚ))
    (hoff : 0 ≤ drum.scrollingOffset) (hexact : drum.scrollingOffset + k ≤ 16777216) :
    (Rolling.updateDrum texture drum).scrollingOffset = (drum.scrollingOffset + k) % texture.h ∧
    (Rolling.updateDrum texture drum).velocity = (k : ℚ) := by
  constructor
  · have hsum := tick_sum_exact drum.scrollingOffset k (abs_le.mpr ⟨by omega, by omega⟩)
      (abs_le.mpr ⟨by omega, by omega⟩)
    simp only [Rolling.updateDrum, hvel, hsum]
    exact wraparound_zero_of_nonneg _ _ (by omega) hH
  · exact hvel

theorem rolling_updateDrum_iterate (texture : SDL_Texture) (drum : Drum) (k : Int)
    (hH : 0 < texture.h) (hk : 0 ≤ k) (hvel : drum.velocity = (k : ℚ))
    (hoff : 0 ≤ drum.scrollingOffset) (hlt : drum.scrollingOffset < texture.h)
    (hexact : texture.h + k ≤ 16777216) (n : ℕ) :
    ((Rolling.updateDrum texture)^[n] drum).scrollingOffset =
        (drum.scrollingOffset + n * k) % texture.h ∧
    ((Rolling.updateDrum texture)^[n] drum).velocity = (k : ℚ) := by
  induction n with
  | zero => simp [Int.emod_eq_of_lt hoff hlt, hvel]
  | succ n ih =>
    rw [Function.iterate_succ_apply']
    have hnn : 0 ≤ ((Rolling.updateDrum texture)^[n] drum).scrollingOffset := by
      rw [ih.1]
      exact Int.emod_nonneg _ (ne_of_gt hH)
    have hnlt : ((Rolling.updateDrum texture)^[n] drum).scrollingOffset < texture.h := by
      rw [ih.1]
      exact Int.emod_lt_of_pos _ hH
    have hstep := rolling_updateDrum_offset texture _ k hH hk ih.2 hnn (by omega)
    refine ⟨?_, hstep.2⟩
    rw [hstep.1, ih.1, Int.emod_add_emod]
    congr 1
    push_cast
    ring

theorem tick_sum_stuck : floatToInt (floatAdd (intToFloat 16777216) 1) = 16777216 := by
  have h1 : intToFloat 16777216 = 16777216 := by
    have := roundBinary32_intCast 16777216 (by norm_num)
    simpa [intToFloat] using this
  have h2 : floatAdd 16777216 1 = 16777216 := by
    unfold floatAdd
    rw [show (16777216 : ℚ) + 1 = 16777217 by norm_num]
    exact roundBinary32_16777217
  rw [h1, h2]
  exact floatToInt_intCast 16777216

theorem rolling_updateDrum_below_stuck (texture : SDL_Texture) (drum : Drum)
    (hH : texture.h = 33554432) (hvel : drum.velocity = 1)
    (h0 : 0 ≤ drum.scrollingOffset) (hle : drum.scrollingOffset ≤ 16777216) :
    (Rolling.updateDrum texture drum).velocity = 1 ∧
    1 ≤ (Rolling.updateDrum texture drum).scrollingOffset ∧
    (Rolling.updateDrum texture drum).scrollingOffset ≤ 16777216 := by
  refine ⟨hvel, ?_⟩
  by_cases hlt : drum.scrollingOffset < 16777216
  · have hsum := tick_sum_exact drum.scrollingOffset 1 (abs_le.mpr ⟨by omega, by omega⟩)
      (abs_le.mpr ⟨by omega, by omega⟩)
    have hv : drum.velocity = ((1 : Int) : ℚ) := by rw [hvel]; norm_num
    simp only [Rolling.updateDrum, hv, hsum, hH]
    rw [wraparound_of_mem _ _ _ (by omega) (by omega)]
    omega
  · have heq : drum.scrollingOffset = 16777216 := by omega
    simp only [Rolling.updateDrum, hvel, heq, tick_sum_stuck, hH]
    rw [wraparound_of_mem _ _ _ (by omega) (by omega)]
    omega

theorem rolling_updateDrum_iterate_stuck (texture : SDL_Texture) (drum : Drum)
    (hH : texture.h = 33554432) (hvel : drum.velocity = 1)
    (hoff : drum.scrollingOffset = 0) (n : ℕ) :
    ((Rolling.updateDrum texture)^[n] drum).velocity = 1 ∧
    0 ≤ ((Rolling.updateDrum texture)^[n] drum).scrollingOffset ∧
    ((Rolling.updateDrum texture)^[n] drum).scrollingOffset ≤ 16777216 ∧
    (1 ≤ n → 1 ≤ ((Rolling.updateDrum texture)^[n] drum).scrollingOffset) := by
  induction n with
  | zero => simp [hvel, hoff]
  | succ n ih =>
    rw [Function.iterate_succ_apply']
    obtain ⟨h1, h2, h3⟩ := rolling_updateDrum_below_stuck texture _ hH ih.1 ih.2.1 ih.2.2.1
    exact ⟨h1, by omega, h3, fun _ => h2⟩

/-- C13 as stated, at `c = H = 2 ^ 25` and `k = 1` (so `k` divides `c`): the
ticks take the offset up to `2 ^ 24`, where the binary32 sum `offset + 1` is
rounded back to `2 ^ 24`; the reel stays there and no offset after `n >= 1`
ticks is a multiple of `c`. -/
theorem rolling_ticks_stick_at_two_pow_24 :
    (1 ∣ 33554432) ∧ (33554432 ∣ 33554432) ∧
    ¬ ∃ n : ℕ, 1 ≤ n ∧ n ≤ 33554432 / Nat.gcd 1 33554432 ∧
      (33554432 : Int) ∣
        ((Rolling.updateDrum { w := 33554432, h := 33554432 })^[n]
          { scrollingOffset := 0, velocity := 1 }).scrollingOffset := by
  refine ⟨one_dvd _, dvd_refl _, ?_⟩
  rintro ⟨n, hn, -, hdvd⟩
  obtain ⟨-, -, hle, hpos⟩ := rolling_updateDrum_iterate_stuck
    { w := 33554432, h := 33554432 } { scrollingOffset := 0, velocity := 1 } rfl rfl rfl n
  have := Int.le_of_dvd (by have := hpos hn; omega) hdvd
  omega

/-- C13, amended: for a cell height `c > 0` dividing the texture height `H > 0`
and an integer velocity `k > 0` with `H + k <= 2 ^ 24` (so that every sum
`offset + velocity` is exact in binary32), ticking a reel from offset 0 with the
loop body of `Rolling::update` reaches an offset that is a multiple of `c` after
`n` ticks for some `n` with `1 <= n <= c / gcd(k, c)`; no divisibility between
`k` and `c` is needed. -/
theorem rolling_ticks_reach_cell_boundary (c H k : ℕ) (hc : 0 < c) (hH : 0 < H) (hk : 0 < k)
    (hcH : c ∣ H) (hexact : H + k ≤ 16777216) (texture : SDL_Texture) (drum : Drum)
    (hheight : texture.h = (H : Int))
    (hoffset : drum.scrollingOffset = 0) (hvelocity : drum.velocity = (k : ℚ)) :
    ∃ n : ℕ, 1 ≤ n ∧ n ≤ c / Nat.gcd k c ∧
      (c : Int) ∣ ((Rolling.updateDrum texture)^[n] drum).scrollingOffset := by
  have hgpos : 0 < Nat.gcd k c := Nat.gcd_pos_of_pos_right k hc
  refine ⟨c / Nat.gcd k c, Nat.div_pos (Nat.le_of_dvd hc (Nat.gcd_dvd_right k c)) hgpos,
    le_refl _, ?_⟩
  have hHpos : 0 < texture.h := by rw [hheight]; exact_mod_cast hH
  have hiter := (rolling_updateDrum_iterate texture drum (k : Int) hHpos (by positivity)
    (by rw [hvelocity]; norm_cast) (by rw [hoffset]) (by rw [hoffset]; exact hHpos)
    (by rw [hheight]; exact_mod_cast hexact) (c / Nat.gcd k c)).1
  rw [hiter, hoffset, zero_add]
  apply dvd_emod_of_dvd
  · rw [hheight]
    exact_mod_cast hcH
  · obtain ⟨a, ha⟩ := Nat.gcd_dvd_left k c
    obtain ⟨b, hb⟩ := Nat.gcd_dvd_right k c
    have hdiv : c / Nat.gcd k c = b := Nat.div_eq_of_eq_mul_right hgpos hb
    rw [hdiv]
    refine ⟨(a : Int), ?_⟩
    have h1 : b * k = b * (Nat.gcd k c * a) := congrArg (fun x => b * x) ha
    have h2 : c * a = Nat.gcd k c * b * a := congrArg (fun x => x * a) hb
    have hnat : b * k = c * a := by
      rw [h1, h2]
      ring
    exact_mod_cast hnat

/-- C13, amended, at cell height 64, texture height 640 and velocity 7. -/
theorem rolling_ticks_reach_cell_boundary_witness :
    ∃ n : ℕ, 1 ≤ n ∧ n ≤ 64 / Nat.gcd 7 64 ∧
      ((64 : ℕ) : Int) ∣
        ((Rolling.updateDrum { w := 64, h := 640 })^[n]
          { scrollingOffset := 0, velocity := 7 }).scrollingOffset :=
  rolling_ticks_reach_cell_boundary 64 640 7 (by decide) (by decide) (by decide) (by decide)
    (by decide) { w := 64, h := 640 } { scrollingOffset := 0, velocity := 7 } (by norm_num) rfl
    (by norm_num)

/-! ## The reel offsets stay in range -/

theorem rolling_updateDrum_inRange (texture : SDL_Texture) (drum : Drum) (hH : 0 < texture.h)
    (hd : 0 ≤ drum.scrollingOffset ∧ drum.scrollingOffset < texture.h ∧ 0 ≤ drum.velocity) :
    0 ≤ (Rolling.updateDrum texture drum).scrollingOffset ∧
      (Rolling.updateDrum texture drum).scrollingOffset < texture.h ∧
      0 ≤ (Rolling.updateDrum texture drum).velocity := by
  obtain ⟨h0, -, hvel⟩ := hd
  have hsum := tick_sum_nonneg drum.scrollingOffset drum.velocity h0 hvel
  simp only [Rolling.updateDrum]
  rw [wraparound_zero_of_nonneg _ _ hsum hH]
  exact ⟨Int.emod_nonneg _ (ne_of_gt hH), Int.emod_lt_of_pos _ hH, hvel⟩

theorem endRolling_updateDrum_inRange (texture : SDL_Texture) (drum : Drum) (flag : Bool)
    (hH : 0 < texture.h)
    (hd : 0 ≤ drum.scrollingOffset ∧ drum.scrollingOffset < texture.h ∧ 0 ≤ drum.velocity) :
    0 ≤ (EndRolling.updateDrum texture drum flag).1.scrollingOffset ∧
      (EndRolling.updateDrum texture drum flag).1.scrollingOffset < texture.h ∧
      0 ≤ (EndRolling.updateDrum texture drum flag).1.velocity := by
  by_cases h : texture.w ∣ drum.scrollingOffset
  · rw [EndRolling.updateDrum_of_dvd _ _ _ h]
    exact hd
  · rw [EndRolling.updateDrum_of_not_dvd _ _ _ h]
    exact rolling_updateDrum_inRange texture drum hH hd

theorem update_reelsInRange (p : BaseGameStatePtr) (now : ℚ) (sm : StateMachine)
    (context : GameContext) (H : Int) (hH : 0 < H) (h : ReelsInRange H context) :
    ReelsInRange H (BaseGameState.update p now sm context).2 := by
  obtain ⟨hh, hd⟩ := h
  cases p
  · exact ⟨hh, hd⟩
  · refine ⟨hh, ?_⟩
    intro drum hmem
    simp only [BaseGameState.update, Rolling.update, List.mem_map] at hmem
    obtain ⟨d, hdm, rfl⟩ := hmem
    have := rolling_updateDrum_inRange context.drumTexture d (by rw [hh]; exact hH)
      (by rw [hh]; exact hd d hdm)
    rw [hh] at this
    exact this
  · refine ⟨hh, ?_⟩
    intro drum hmem
    simp only [BaseGameState.update, endRolling_update_context, List.mem_map] at hmem
    obtain ⟨d, hdm, rfl⟩ := hmem
    have := endRolling_updateDrum_inRange context.drumTexture d true (by rw [hh]; exact hH)
      (by rw [hh]; exact hd d hdm)
    rw [hh] at this
    exact this
  · exact ⟨hh, hd⟩

theorem handleEvent_reels (p : BaseGameStatePtr) (sm : StateMachine) (context : GameContext)
    (event : SDL_Event) :
    (BaseGameState.handleEvent p sm context event).2 = context := by
  cases p
  · simp only [BaseGameState.handleEvent, Idle.handleEvent]
    split_ifs <;> rfl
  · simp only [BaseGameState.handleEvent, Rolling.handleEvent]
    split_ifs <;> rfl
  · rfl
  · rfl

theorem exit_reels (p : BaseGameStatePtr) (sm : StateMachine) (context : GameContext) :
    (BaseGameState.exit p sm context).2.drums = context.drums ∧
      (BaseGameState.exit p sm context).2.drumTexture = context.drumTexture := by
  cases p <;> exact ⟨rfl, rfl⟩

theorem enter_reels (p : BaseGameStatePtr) (now : ℚ) (sm : StateMachine)
    (context : GameContext) :
    (BaseGameState.enter p now sm context).2.drums = context.drums ∧
      (BaseGameState.enter p now sm context).2.drumTexture = context.drumTexture := by
  cases p <;> exact ⟨rfl, rfl⟩

theorem reelsInRange_of_same_reels (H : Int) (a b : GameContext) (hd : b.drums = a.drums)
    (ht : b.drumTexture = a.drumTexture) (h : ReelsInRange H a) : ReelsInRange H b := by
  unfold ReelsInRange at *
  rw [hd, ht]
  exact h

theorem pollEvents_context (events : List SDL_Event) (m : MainLoop) :
    (pollEvents events m).context = m.context := by
  unfold pollEvents
  induction events generalizing m with
  | nil => rfl
  | cons event rest ih =>
    rw [List.foldl_cons, ih]
    exact handleEvent_reels _ _ _ _

theorem frame_reelsInRange (input : FrameInput) (m : MainLoop) (H : Int) (hH : 0 < H)
    (h : ReelsInRange H m.context) : ReelsInRange H (frame input m).context := by
  have h1 : ReelsInRange H (pollEvents input.events m).context := by
    rw [pollEvents_context]
    exact h
  have h2 : ReelsInRange H
      (updateAndRender input.updateClock (pollEvents input.events m)).context :=
    update_reelsInRange _ _ _ _ H hH h1
  unfold frame switchState
  dsimp only
  split_ifs
  · exact reelsInRange_of_same_reels H _ _
      ((enter_reels _ _ _ _).1.trans (exit_reels _ _ _).1)
      ((enter_reels _ _ _ _).2.trans (exit_reels _ _ _).2) h2
  · exact h2

theorem mainLoop_reelsInRange (frames : List FrameInput) (m : MainLoop) (H : Int) (hH : 0 < H)
    (h : ReelsInRange H m.context) : ReelsInRange H (mainLoop frames m).context := by
  induction frames generalizing m with
  | nil => exact h
  | cons input rest ih =>
    unfold mainLoop
    split_ifs
    · exact ih _ (frame_reelsInRange input m H hH h)
    · exact h

theorem initGameContext_reels (platform : Platform) (context : GameContext)
    (h : initGameContext platform = some context) :
    context.drums.map (fun drum => (drum.scrollingOffset, drum.velocity)) =
      [(0, 2), (0, 4), (0, 7), (0, 9)] := by
  unfold initGameContext at h
  split_ifs at h
  split at h
  · cases h
  · simp only [Option.some.injEq] at h
    subst h
    norm_num

/-- C12: from the context built by `initGameContext` (four reels at offset 0
with velocities 2, 4, 7, 9) and a texture of height `H > 0`, after `main` has
entered `Idle` and run any list of frames, with any events and clock readings,
the texture height is still `H` and every reel offset lies in `[0, H)`. -/
theorem reel_offsets_stay_in_range (platform : Platform) (context : GameContext)
    (enterClock : ℚ) (frames : List FrameInput)
    (hinit : initGameContext platform = some context) (hH : 0 < context.drumTexture.h) :
    context.drums.map (fun drum => (drum.scrollingOffset, drum.velocity)) =
      [(0, 2), (0, 4), (0, 7), (0, 9)] ∧
    (mainLoop frames (mainInit enterClock context)).context.drumTexture.h =
      context.drumTexture.h ∧
    ∀ drum ∈ (mainLoop frames (mainInit enterClock context)).context.drums,
      0 ≤ drum.scrollingOffset ∧ drum.scrollingOffset < context.drumTexture.h := by
  have hreels := initGameContext_reels platform context hinit
  have hstart : ReelsInRange context.drumTexture.h context := by
    refine ⟨rfl, ?_⟩
    intro drum hmem
    have hpair : (drum.scrollingOffset, drum.velocity) ∈
        context.drums.map (fun drum => (drum.scrollingOffset, drum.velocity)) :=
      List.mem_map.mpr ⟨drum, hmem, rfl⟩
    rw [hreels] at hpair
    simp only [List.mem_cons, Prod.mk.injEq, List.mem_singleton, List.not_mem_nil,
      or_false] at hpair
    rcases hpair with ⟨ho, hv⟩ | ⟨ho, hv⟩ | ⟨ho, hv⟩ | ⟨ho, hv⟩
    · exact ⟨by omega, by omega, by rw [hv]; norm_num⟩
    · exact ⟨by omega, by omega, by rw [hv]; norm_num⟩
    · exact ⟨by omega, by omega, by rw [hv]; norm_num⟩
    · exact ⟨by omega, by omega, by rw [hv]; norm_num⟩
  have hinitLoop : ReelsInRange context.drumTexture.h (mainInit enterClock context).context :=
    reelsInRange_of_same_reels _ context _ (enter_reels _ _ _ _).1 (enter_reels _ _ _ _).2 hstart
  have hend := mainLoop_reelsInRange frames _ _ hH hinitLoop
  refine ⟨hreels, ?_, ?_⟩
  · exact hend.1
  · intro drum hmem
    exact ⟨(hend.2 drum hmem).1, (hend.2 drum hmem).2.1⟩

/-- C12 for a 64 x 640 texture and two frames: a click on the start button,
then a frame without events. -/
theorem reel_offsets_stay_in_range_witness :
    ((mainLoop
        [{ events := [{ type := SDL_EventType.SDL_EVENT_MOUSE_BUTTON_DOWN,
                        button := { x := 700, y := 30 } }],
           updateClock := 1, enterClock := 1 },
         { events := [], updateClock := 2, enterClock := 2 }]
        (mainInit 0
          ((initGameContext { drumTexture := some { w := 64, h := 640 } }).get
            rfl))).context.drums.all
      fun drum => decide (0 ≤ drum.scrollingOffset ∧ drum.scrollingOffset < 640)) = true := by
  rw [List.all_eq_true]
  intro drum hmem
  rw [decide_eq_true_eq]
  exact (reel_offsets_stay_in_range { drumTexture := some { w := 64, h := 640 } }
    ((initGameContext { drumTexture := some { w := 64, h := 640 } }).get rfl) 0
    [{ events := [{ type := SDL_EventType.SDL_EVENT_MOUSE_BUTTON_DOWN,
                    button := { x := 700, y := 30 } }],
       updateClock := 1, enterClock := 1 },
     { events := [], updateClock := 2, enterClock := 2 }]
    rfl (by decide)).2.2 drum hmem

/-! ## A spin is not ended by a timer flag left over from an earlier spin -/

theorem pollEvents_rolling_no_click (events : List SDL_Event) (m : MainLoop)
    (hcur : m.currentState = BaseGameStatePtr.rollingState)
    (hevents : ∀ event ∈ events, event.type ≠ SDL_EventType.SDL_EVENT_MOUSE_BUTTON_DOWN) :
    (pollEvents events m).stateMachine = m.stateMachine ∧
    (pollEvents events m).context = m.context ∧
    (pollEvents events m).currentState = BaseGameStatePtr.rollingState ∧
    (pollEvents events m).calls =
      m.calls ++ events.map (fun _ => Call.handleEvent BaseGameStatePtr.rollingState) := by
  unfold pollEvents
  induction events generalizing m with
  | nil => simp [hcur]
  | cons event rest ih =>
    have hne := hevents event (List.mem_cons_self _ _)
    have hstep : pollEvent m event =
        { m with
          isRunning :=
            if event.type = SDL_EventType.SDL_EVENT_QUIT then false else m.isRunning
          calls := m.calls ++ [Call.handleEvent BaseGameStatePtr.rollingState] } := by
      simp only [pollEvent, hcur, BaseGameState.handleEvent,
        rolling_handleEvent_of_not_click _ _ _ hne]
    have hrest := ih (pollEvent m event) (by rw [hstep]; exact hcur)
      (fun e he => hevents e (List.mem_cons_of_mem _ he))
    rw [List.foldl_cons]
    refine ⟨hrest.1.trans (by rw [hstep]), hrest.2.1.trans (by rw [hstep]), hrest.2.2.1, ?_⟩
    rw [hrest.2.2.2, hstep]
    simp

theorem frame_rolling_stays (input : FrameInput) (m : MainLoop)
    (hcur : m.currentState = BaseGameStatePtr.rollingState)
    (hstop : m.stateMachine.rollingState.isStopButtonPushed = false)
    (hduration : m.stateMachine.rollingState.timerDuration = 3)
    (hevents : ∀ event ∈ input.events,
      event.type ≠ SDL_EventType.SDL_EVENT_MOUSE_BUTTON_DOWN)
    (hclock : input.updateClock - m.stateMachine.rollingState.startTime < 3) :
    (frame input m).currentState = BaseGameStatePtr.rollingState ∧
    (frame input m).stateMachine.rollingState.isStopButtonPushed = false ∧
    (frame input m).stateMachine.rollingState.timerDuration = 3 ∧
    (frame input m).stateMachine.rollingState.startTime =
      m.stateMachine.rollingState.startTime ∧
    (frame input m).calls =
      m.calls ++
        (input.events.map (fun _ => Call.handleEvent BaseGameStatePtr.rollingState) ++
          [Call.update BaseGameStatePtr.rollingState,
           Call.render BaseGameStatePtr.rollingState,
           Call.transition BaseGameStatePtr.rollingState States.Rolling]) := by
  obtain ⟨hsm, -, hc, hcalls⟩ := pollEvents_rolling_no_click input.events m hcur hevents
  have hup : decide (input.updateClock - m.stateMachine.rollingState.startTime ≥ 3) = false := by
    simp only [decide_eq_false_iff_not, ge_iff_le, not_le]
    exact hclock
  simp only [frame, updateAndRender, switchState, hsm, hc, hcalls, BaseGameState.update,
    BaseGameState.render, BaseGameState.transition, Rolling.update, Rolling.transition,
    StateMachine.transition, hstop, hduration, hup]
  simp

/-- C17: a `Rolling` activation entered at `enterClock` with the stop flag
clear, whatever the value of `isTimerUp` at entry: over any list of frames that
handle no pointer-down event and whose clock reading at `update` is less than 3
seconds after `enterClock`, `Rolling` stays active and the only calls made are
`handleEvent`, `update`, `render` and `transition` returning `Rolling`. -/
theorem rolling_stale_timer_flag_keeps_spin (sm : StateMachine) (context : GameContext)
    (enterClock : ℚ) (isRunning : Bool) (calls : List Call) (frames : List FrameInput)
    (hstop : sm.rollingState.isStopButtonPushed = false)
    (hduration : sm.rollingState.timerDuration = 3)
    (hframes : ∀ input ∈ frames,
      (∀ event ∈ input.events, event.type ≠ SDL_EventType.SDL_EVENT_MOUSE_BUTTON_DOWN) ∧
        input.updateClock - enterClock < 3) :
    (mainLoop frames
        { context := (BaseGameState.enter BaseGameStatePtr.rollingState enterClock sm context).2,
          stateMachine :=
            (BaseGameState.enter BaseGameStatePtr.rollingState enterClock sm context).1,
          currentState := BaseGameStatePtr.rollingState,
          isRunning := isRunning, calls := calls }).currentState =
      BaseGameStatePtr.rollingState ∧
    ∃ suffix : List Call,
      (mainLoop frames
          { context :=
              (BaseGameState.enter BaseGameStatePtr.rollingState enterClock sm context).2,
            stateMachine :=
              (BaseGameState.enter BaseGameStatePtr.rollingState enterClock sm context).1,
            currentState := BaseGameStatePtr.rollingState,
            isRunning := isRunning, calls := calls }).calls = calls ++ suffix ∧
      ∀ call ∈ suffix,
        call = Call.handleEvent BaseGameStatePtr.rollingState ∨
        call = Call.update BaseGameStatePtr.rollingState ∨
        call = Call.render BaseGameStatePtr.rollingState ∨
        call = Call.transition BaseGameStatePtr.rollingState States.Rolling := by
  have key : ∀ (frames : List FrameInput) (m : MainLoop),
      m.currentState = BaseGameStatePtr.rollingState →
      m.stateMachine.rollingState.isStopButtonPushed = false →
      m.stateMachine.rollingState.timerDuration = 3 →
      m.stateMachine.rollingState.startTime = enterClock →
      (∀ input ∈ frames,
        (∀ event ∈ input.events, event.type ≠ SDL_EventType.SDL_EVENT_MOUSE_BUTTON_DOWN) ∧
          input.updateClock - enterClock < 3) →
      (mainLoop frames m).currentState = BaseGameStatePtr.rollingState ∧
      ∃ suffix : List Call,
        (mainLoop frames m).calls = m.calls ++ suffix ∧
        ∀ call ∈ suffix,
          call = Call.handleEvent BaseGameStatePtr.rollingState ∨
          call = Call.update BaseGameStatePtr.rollingState ∨
          call = Call.render BaseGameStatePtr.rollingState ∨
          call = Call.transition BaseGameStatePtr.rollingState States.Rolling := by
    intro frames
    induction frames with
    | nil =>
      intro m hcur _ _ _ _
      exact ⟨hcur, [], by simp [mainLoop], by simp⟩
    | cons input rest ih =>
      intro m hcur hs hd ht hfr
      unfold mainLoop
      split_ifs
      · obtain ⟨hev, hclk⟩ := hfr input (List.mem_cons_self _ _)
        obtain ⟨f1, f2, f3, f4, f5⟩ :=
          frame_rolling_stays input m hcur hs hd hev (by rw [ht]; exact hclk)
        obtain ⟨r1, suffix, r2, r3⟩ := ih (frame input m) f1 f2 f3 (f4.trans ht)
          (fun i hi => hfr i (List.mem_cons_of_mem _ hi))
        refine ⟨r1, _, by rw [r2, f5, List.append_assoc], ?_⟩
        intro call hmem
        simp only [List.mem_append, List.mem_map, List.mem_cons, List.mem_singleton,
          List.not_mem_nil, or_false] at hmem
        rcases hmem with (⟨_, _, rfl⟩ | h | h | h) | h
        · exact Or.inl rfl
        · exact Or.inr (Or.inl h)
        · exact Or.inr (Or.inr (Or.inl h))
        · exact Or.inr (Or.inr (Or.inr h))
        · exact r3 call h
      · exact ⟨hcur, [], by simp, by simp⟩
  exact key frames _ rfl hstop hduration rfl hframes

/-- C17 for a machine whose `Rolling` state still has `isTimerUp` set from an
earlier spin, entered at time 10 and run for two frames at times 11 and 12. -/
theorem rolling_stale_timer_flag_keeps_spin_witness :
    (mainLoop
        [{ events := [{ type := SDL_EventType.other }], updateClock := 11 },
         { events := [], updateClock := 12 }]
        { context :=
            (BaseGameState.enter BaseGameStatePtr.rollingState 10
              { rollingState := { isTimerUp := true } } {}).2,
          stateMachine :=
            (BaseGameState.enter BaseGameStatePtr.rollingState 10
              { rollingState := { isTimerUp := true } } {}).1,
          currentState := BaseGameStatePtr.rollingState,
          isRunning := true, calls := [] }).currentState =
      BaseGameStatePtr.rollingState :=
  (rolling_stale_timer_flag_keeps_spin { rollingState := { isTimerUp := true } } {} 10 true []
    [{ events := [{ type := SDL_EventType.other }], updateClock := 11 },
     { events := [], updateClock := 12 }]
    rfl rfl
    (by
      intro input hmem
      simp only [List.mem_cons, List.mem_singleton, List.not_mem_nil, or_false] at hmem
      rcases hmem with rfl | rfl
      · refine ⟨?_, by norm_num⟩
        intro event hevent
        simp only [List.mem_singleton] at hevent
        subst hevent
        decide
      · exact ⟨by simp, by norm_num⟩)).1

/-! ## `EndRolling` brings every reachable reel to rest -/

theorem exists_tick_count (c k : ℕ) (o : Int) (hc : 0 < c)
    (hg : ((Nat.gcd k c : ℕ) : Int) ∣ o) :
    ∃ n : ℕ, n ≤ c / Nat.gcd k c ∧ (c : Int) ∣ o + (n : Int) * (k : Int) := by
  have hgpos : 0 < Nat.gcd k c := Nat.gcd_pos_of_pos_right k hc
  obtain ⟨a, ha⟩ := Nat.gcd_dvd_left k c
  obtain ⟨b, hb⟩ := Nat.gcd_dvd_right k c
  obtain ⟨o1, ho⟩ := hg
  have hdiv : c / Nat.gcd k c = b := Nat.div_eq_of_eq_mul_right hgpos hb
  have hbpos : 0 < b := by
    rw [← hdiv]
    exact Nat.div_pos (Nat.le_of_dvd hc (Nat.gcd_dvd_right k c)) hgpos
  have hbez : ((Nat.gcd k c : ℕ) : Int) =
      (k : Int) * Int.gcdA k c + (c : Int) * Int.gcdB k c := by
    have h := Int.gcd_eq_gcd_ab (k : Int) (c : Int)
    simpa using h
  have hkZ : (k : Int) = ((Nat.gcd k c : ℕ) : Int) * (a : Int) := by exact_mod_cast ha
  have hcZ : (c : Int) = ((Nat.gcd k c : ℕ) : Int) * (b : Int) := by exact_mod_cast hb
  have hbZ : (0 : Int) < (b : Int) := by exact_mod_cast hbpos
  have ht0 : 0 ≤ (-(Int.gcdA k c * o1)) % (b : Int) := Int.emod_nonneg _ (ne_of_gt hbZ)
  have ht1 : (-(Int.gcdA k c * o1)) % (b : Int) < (b : Int) := Int.emod_lt_of_pos _ hbZ
  have htdef := Int.emod_def (-(Int.gcdA k c * o1)) (b : Int)
  refine ⟨((-(Int.gcdA k c * o1)) % (b : Int)).toNat, ?_, ?_⟩
  · rw [hdiv]
    have : (((-(Int.gcdA k c * o1)) % (b : Int)).toNat : Int) < (b : Int) := by
      rw [Int.toNat_of_nonneg ht0]
      exact ht1
    omega
  · rw [Int.toNat_of_nonneg ht0, htdef, ho]
    generalize ((Nat.gcd k c : ℕ) : Int) = G at hbez hkZ hcZ ⊢
    generalize (k : Int) = K at hbez hkZ ⊢
    generalize (c : Int) = C at hbez hcZ ⊢
    generalize Int.gcdA _ _ = x at hbez ⊢
    generalize Int.gcdB _ _ = y at hbez
    generalize -(x * o1) / (b : Int) = q
    subst hkZ hcZ
    refine ⟨y * o1 - q * (a : Int), ?_⟩
    linear_combination o1 * hbez

theorem endRolling_updateReel_of_dvd (texture : SDL_Texture) (drum : Drum)
    (h : texture.w ∣ drum.scrollingOffset) (n : ℕ) :
    (EndRolling.updateReel texture)^[n] drum = drum :=
  Function.iterate_fixed
    (by rw [EndRolling.updateReel, EndRolling.updateDrum_of_dvd _ _ _ h]) n

theorem endRolling_updateReel_iterate (texture : SDL_Texture) (drum : Drum) (k : Int)
    (hH : 0 < texture.h) (hk : 0 ≤ k) (hvel : drum.velocity = (k : ℚ))
    (hoff : 0 ≤ drum.scrollingOffset) (hlt : drum.scrollingOffset < texture.h)
    (hexact : texture.h + k ≤ 16777216) (n : ℕ) :
    ((EndRolling.updateReel texture)^[n] drum).velocity = (k : ℚ) ∧
    0 ≤ ((EndRolling.updateReel texture)^[n] drum).scrollingOffset ∧
    ((EndRolling.updateReel texture)^[n] drum).scrollingOffset < texture.h ∧
    (texture.w ∣ ((EndRolling.updateReel texture)^[n] drum).scrollingOffset ∨
      ((EndRolling.updateReel texture)^[n] drum).scrollingOffset =
        (drum.scrollingOffset + n * k) % texture.h) := by
  induction n with
  | zero => simp [Int.emod_eq_of_lt hoff hlt, hvel, hoff, hlt]
  | succ n ih =>
    rw [Function.iterate_succ_apply']
    obtain ⟨ihv, ih0, ihlt, ihd⟩ := ih
    by_cases hd : texture.w ∣ ((EndRolling.updateReel texture)^[n] drum).scrollingOffset
    · have hfix : EndRolling.updateReel texture ((EndRolling.updateReel texture)^[n] drum) =
          (EndRolling.updateReel texture)^[n] drum := by
        rw [EndRolling.updateReel, EndRolling.updateDrum_of_dvd _ _ _ hd]
      rw [hfix]
      exact ⟨ihv, ih0, ihlt, Or.inl hd⟩
    · have hstep : EndRolling.updateReel texture ((EndRolling.updateReel texture)^[n] drum) =
          Rolling.updateDrum texture ((EndRolling.updateReel texture)^[n] drum) := by
        rw [EndRolling.updateReel, EndRolling.updateDrum_of_not_dvd _ _ _ hd]
      have hroll := rolling_updateDrum_offset texture _ k hH hk ihv ih0 (by omega)
      rw [hstep]
      refine ⟨hroll.2, ?_, ?_, Or.inr ?_⟩
      · rw [hroll.1]
        exact Int.emod_nonneg _ (ne_of_gt hH)
      · rw [hroll.1]
        exact Int.emod_lt_of_pos _ hH
      · rw [hroll.1, ihd.resolve_left hd, Int.emod_add_emod]
        congr 1
        push_cast
        ring

theorem endRolling_updateReel_settles (c H k : ℕ) (hc : 0 < c) (hH : 0 < H) (hcH : c ∣ H)
    (hexact : H + k ≤ 16777216) (texture : SDL_Texture) (drum : Drum)
    (hcell : texture.w = (c : Int)) (hheight : texture.h = (H : Int))
    (hvelocity : drum.velocity = (k : ℚ)) (hoffset : 0 ≤ drum.scrollingOffset)
    (hlt : drum.scrollingOffset < (H : Int))
    (hg : ((Nat.gcd k c : ℕ) : Int) ∣ drum.scrollingOffset) :
    ∃ n : ℕ, n ≤ c / Nat.gcd k c ∧
      ∀ j : ℕ, n ≤ j →
        (c : Int) ∣ ((EndRolling.updateReel texture)^[j] drum).scrollingOffset ∧
        (EndRolling.updateReel texture)^[j] drum = (EndRolling.updateReel texture)^[n] drum := by
  obtain ⟨n, hn, hdvd⟩ := exists_tick_count c k drum.scrollingOffset hc hg
  have hHpos : 0 < texture.h := by rw [hheight]; exact_mod_cast hH
  have hiter := endRolling_updateReel_iterate texture drum (k : Int) hHpos (by positivity)
    (by rw [hvelocity]; norm_cast) hoffset (by rw [hheight]; exact hlt)
    (by rw [hheight]; exact_mod_cast hexact) n
  have hsettled : texture.w ∣ ((EndRolling.updateReel texture)^[n] drum).scrollingOffset := by
    rcases hiter.2.2.2 with h | h
    · exact h
    · rw [h, hcell]
      apply dvd_emod_of_dvd _ _ _ _ hdvd
      rw [hheight]
      exact_mod_cast hcH
  refine ⟨n, hn, ?_⟩
  intro j hj
  have hsplit : (EndRolling.updateReel texture)^[j] drum =
      (EndRolling.updateReel texture)^[n] drum := by
    obtain ⟨d, rfl⟩ := Nat.exists_eq_add_of_le hj
    rw [Nat.add_comm, Function.iterate_add_apply]
    exact endRolling_updateReel_of_dvd texture _ hsettled d
  rw [hsplit]
  exact ⟨by rw [← hcell]; exact hsettled, rfl⟩

theorem endRolling_updateReel_stuck :
    EndRolling.updateReel { w := 10, h := 33554440 } { scrollingOffset := 16777216, velocity := 1 }
      = { scrollingOffset := 16777216, velocity := 1 } := by
  have hnd : ¬ ({ w := 10, h := 33554440 } : SDL_Texture).w ∣
      ({ scrollingOffset := 16777216, velocity := 1 } : Drum).scrollingOffset := by decide
  rw [EndRolling.updateReel, EndRolling.updateDrum_of_not_dvd _ _ _ hnd]
  simp only [Rolling.updateDrum, tick_sum_stuck]
  rw [wraparound_of_mem _ _ _ (by decide) (by decide)]

theorem endRolling_updates_succ (n : ℕ) (self : EndRolling) (context : GameContext) :
    EndRolling.updates (n + 1) self context =
      EndRolling.update (EndRolling.updates n self context).1
        (EndRolling.updates n self context).2 := by
  unfold EndRolling.updates
  rw [Function.iterate_succ_apply']

theorem endRolling_updates_context (n : ℕ) (self : EndRolling) (context : GameContext) :
    (EndRolling.updates n self context).2 =
      { context with
        drums := context.drums.map ((EndRolling.updateReel context.drumTexture)^[n]) } := by
  induction n with
  | zero => simp [EndRolling.updates]
  | succ n ih =>
    rw [endRolling_updates_succ, endRolling_update_context, ih]
    simp only [List.map_map]
    congr 1
    apply List.map_congr_left
    intro drum _
    simp only [Function.comp_apply, Function.iterate_succ_apply']
    rfl

theorem endRolling_updates_flag (n : ℕ) (self : EndRolling) (context : GameContext) :
    (EndRolling.updates (n + 1) self context).1.isDrumsStoped = true ↔
      ∀ drum ∈ context.drums,
        context.drumTexture.w ∣
          ((EndRolling.updateReel context.drumTexture)^[n + 1] drum).scrollingOffset := by
  have hctx := endRolling_updates_context (n + 1) self context
  have htex : (EndRolling.updates n self context).2.drumTexture = context.drumTexture := by
    rw [endRolling_updates_context]
  have hflag : (EndRolling.updates (n + 1) self context).1.isDrumsStoped = true ↔
      ∀ drum ∈ (EndRolling.updates (n + 1) self context).2.drums,
        context.drumTexture.w ∣ drum.scrollingOffset := by
    rw [endRolling_updates_succ]
    simp only [EndRolling.update]
    rw [EndRolling.updateDrums_flag, htex]
    simp
  rw [hflag, hctx]
  simp only [List.mem_map, forall_exists_index, and_imp, forall_apply_eq_imp_iff₂]

/-- C18 as stated, at `c = 10`, `H = 33554440`, `k = 1` and a reel at offset
`2 ^ 24` (in `[0, H)`, divisible by `gcd(1, 10) = 1`, not a multiple of 10): the
binary32 sum `offset + 1` is rounded back to `2 ^ 24`, so `EndRolling::update`
never moves the reel and it does not reach a multiple of `c`. -/
theorem endRolling_reel_stuck_at_two_pow_24 :
    (10 ∣ 33554440) ∧ ((Nat.gcd 1 10 : ℕ) : Int) ∣ 16777216 ∧
    ¬ ∃ n : ℕ, n ≤ 10 / Nat.gcd 1 10 ∧
      (10 : Int) ∣
        ((EndRolling.updateReel { w := 10, h := 33554440 })^[n]
          { scrollingOffset := 16777216, velocity := 1 }).scrollingOffset := by
  refine ⟨by decide, by decide, ?_⟩
  rintro ⟨n, -, hdvd⟩
  rw [Function.iterate_fixed endRolling_updateReel_stuck n] at hdvd
  revert hdvd
  decide

/-- C18, amended: for a cell height `c > 0` (the texture width) dividing the
texture height `H > 0`, a reel with a positive integer velocity `k` with
`H + k <= 2 ^ 24` (so that every sum `offset + velocity` is exact in binary32)
and an offset in `[0, H)` divisible by `gcd(k, c)` is brought to a multiple of
`c` by at most `c / gcd(k, c)` calls of `EndRolling::update` and stays there
under all further calls; the reels after `j` calls are the reels after `j`
iterations of the loop body; when every reel is of this kind, `isDrumsStoped`
is true after `c` calls and after any larger number of calls (64 calls for
`c = 64`). -/
theorem endRolling_finishes_for_reachable_reels (c H : ℕ) (hc : 0 < c) (hH : 0 < H)
    (hcH : c ∣ H) (self : EndRolling) (context : GameContext)
    (hcell : context.drumTexture.w = (c : Int)) (hheight : context.drumTexture.h = (H : Int))
    (hreels : ∀ drum ∈ context.drums,
      0 ≤ drum.scrollingOffset ∧ drum.scrollingOffset < (H : Int) ∧
        ∃ k : ℕ, 0 < k ∧ H + k ≤ 16777216 ∧ drum.velocity = (k : ℚ) ∧
          ((Nat.gcd k c : ℕ) : Int) ∣ drum.scrollingOffset) :
    (∀ drum ∈ context.drums, ∀ k : ℕ, 0 < k → H + k ≤ 16777216 → drum.velocity = (k : ℚ) →
      ((Nat.gcd k c : ℕ) : Int) ∣ drum.scrollingOffset →
      ∃ n : ℕ, n ≤ c / Nat.gcd k c ∧
        ∀ j : ℕ, n ≤ j →
          (c : Int) ∣
            ((EndRolling.updateReel context.drumTexture)^[j] drum).scrollingOffset ∧
          (EndRolling.updateReel context.drumTexture)^[j] drum =
            (EndRolling.updateReel context.drumTexture)^[n] drum) ∧
    (∀ j : ℕ, (EndRolling.updates j self context).2.drums =
      context.drums.map ((EndRolling.updateReel context.drumTexture)^[j])) ∧
    (∀ j : ℕ, c ≤ j → (EndRolling.updates j self context).1.isDrumsStoped = true) := by
  refine ⟨?_, ?_, ?_⟩
  · intro drum hmem k _ hexact hvel hg
    exact endRolling_updateReel_settles c H k hc hH hcH hexact context.drumTexture drum hcell
      hheight hvel (hreels drum hmem).1 (hreels drum hmem).2.1 hg
  · intro j
    rw [endRolling_updates_context]
  · intro j hj
    obtain ⟨i, rfl⟩ : ∃ i, j = i + 1 := ⟨j - 1, by omega⟩
    rw [endRolling_updates_flag]
    intro drum hmem
    obtain ⟨h0, hlt, k, -, hexact, hvel, hg⟩ := hreels drum hmem
    obtain ⟨n, hn, hsettle⟩ := endRolling_updateReel_settles c H k hc hH hcH hexact
      context.drumTexture drum hcell hheight hvel h0 hlt hg
    have hle : n ≤ i + 1 := le_trans hn (le_trans (Nat.div_le_self _ _) hj)
    rw [hcell]
    exact (hsettle (i + 1) hle).1

/-- C18, amended, at `c = 64`, `H = 640` and the four reels with velocities 2,
4, 7, 9 at the offsets 6, 12, 21, 27 they have after three ticks: the flag is
set after 64 calls of `EndRolling::update`. -/
theorem endRolling_finishes_for_reachable_reels_witness :
    (EndRolling.updates 64 {}
        { drumTexture := { w := 64, h := 640 },
          drums := [{ scrollingOffset := 6, velocity := 2 },
                    { scrollingOffset := 12, velocity := 4 },
                    { scrollingOffset := 21, velocity := 7 },
                    { scrollingOffset := 27, velocity := 9 }] }).1.isDrumsStoped = true :=
  (endRolling_finishes_for_reachable_reels 64 640 (by decide) (by decide) (by decide) {}
    { drumTexture := { w := 64, h := 640 },
      drums := [{ scrollingOffset := 6, velocity := 2 },
                { scrollingOffset := 12, velocity := 4 },
                { scrollingOffset := 21, velocity := 7 },
                { scrollingOffset := 27, velocity := 9 }] }
    rfl rfl
    (by
      intro drum hmem
      simp only [List.mem_cons, List.mem_singleton, List.not_mem_nil, or_false] at hmem
      rcases hmem with rfl | rfl | rfl | rfl
      · exact ⟨by decide, by decide, 2, by decide, by decide, by norm_num, by decide⟩
      · exact ⟨by decide, by decide, 4, by decide, by decide, by norm_num, by decide⟩
      · exact ⟨by decide, by decide, 7, by decide, by decide, by norm_num, by decide⟩
      · exact ⟨by decide, by decide, 9, by decide, by decide, by norm_num, by decide⟩)).2.2 64
    (le_refl _)

end Octavian
